import Mathlib

/-!
Verification of the omzet job orchestration and workflow execution engine.

The definitions below are a shallow embedding of the Rust sources:
  src/workflow_runner/runner.rs      (Runner: prepare, probe_tasks, run_tasks, complete_run)
  src/workflow_runner/custom_task.rs (CustomTask probe and task execution, run_script)
  src/workflow_runner/util.rs        (generate_target_file, generate_output_file_name)
  src/workflow.rs                    (Workflow, Task, CustomTask, BuiltinTask)
  src/job_orchestration.rs           (JobRequest, TaskReport, WorkflowReport, JobOrchestrator)

The file system is modelled as an association list from paths to file
contents; directories are not tracked (the runner only creates one
directory, recorded as a trace event).  External nondeterminism - the
success of file system calls, the UUID, and the behaviour of the probe
and task subprocesses - is supplied by a RunEnv environment record.
Every runner step also appends events to a trace so that ordering and
frame properties (which task commands ran, which paths were written)
can be stated.
-/

namespace Omzet

/-- Paths are modelled as plain strings, as in the Rust code which moves
PathBuf values around without normalisation. -/
abbrev FsPath := String

/-- File contents (the bytes of a file). -/
abbrev Content := String

/-! ### File system model -/

/-- A file system: an association list from paths to contents.  Reads take
the first matching entry; writes prepend. -/
structure FS where
  files : List (FsPath × Content)
deriving DecidableEq, Repr

/-- First-match lookup in the file list. -/
def lookupFile : List (FsPath × Content) → FsPath → Option Content
  | [], _ => none
  | e :: rest, p => if e.1 = p then some e.2 else lookupFile rest p

/-- Remove every entry for a path. -/
def removeAllFiles : List (FsPath × Content) → FsPath → List (FsPath × Content)
  | [], _ => []
  | e :: rest, p => if e.1 = p then removeAllFiles rest p else e :: removeAllFiles rest p

/-- Read the bytes of a file, if present. -/
def FS.read (fs : FS) (p : FsPath) : Option Content := lookupFile fs.files p

/-- Write (create or overwrite) a file. -/
def FS.write (fs : FS) (p : FsPath) (c : Content) : FS := ⟨(p, c) :: fs.files⟩

/-- Delete a file. -/
def FS.removeFile (fs : FS) (p : FsPath) : FS := ⟨removeAllFiles fs.files p⟩

/-- Model of std::fs::rename - fails (returns none) when the source path
does not exist, otherwise moves the file, overwriting the destination. -/
def FS.renameFile (fs : FS) (src dst : FsPath) : Option FS :=
  match fs.read src with
  | none => none
  | some c => some ((fs.removeFile src).write dst c)

/-- Model of std::fs::exists. -/
def FS.existsFile (fs : FS) (p : FsPath) : Bool := (fs.read p).isSome

/-! ### Data model (src/workflow.rs, src/job_orchestration.rs) -/

/-- CustomTask from src/workflow.rs. -/
structure CustomTask where
  id : String
  description : String
  probe : Option String
  command : String
deriving DecidableEq, Repr

/-- BuiltinTask from src/workflow.rs. -/
inductive BuiltinTask where
  | TranscodeToH265
deriving DecidableEq, Repr

/-- Task from src/workflow.rs: tagged union of custom and builtin tasks. -/
inductive Task where
  | Custom (t : CustomTask)
  | Builtin (b : BuiltinTask)
deriving DecidableEq, Repr

/-- Workflow from src/workflow.rs. -/
structure Workflow where
  name : String
  scratchpad_directory : String
  included_extensions : List String
  tasks : List Task
deriving DecidableEq, Repr

/-- TaskReport from src/job_orchestration.rs. -/
structure TaskReport where
  exit_code : Option Int
  stdout : String
  stderr : String
deriving DecidableEq, Repr

/-- WorkflowReport from src/job_orchestration.rs. -/
structure WorkflowReport where
  workflow : Workflow
  task_reports : List TaskReport
deriving DecidableEq, Repr

/-- WorkflowReport::new - report with no task reports. -/
def WorkflowReport.new (w : Workflow) : WorkflowReport := ⟨w, []⟩

/-- WorkflowReport::new_with_reports. -/
def WorkflowReport.new_with_reports (w : Workflow) (trs : List TaskReport) : WorkflowReport :=
  ⟨w, trs⟩

/-- ProbeResult from src/workflow_runner/common.rs. -/
inductive ProbeResult where
  | Run
  | Skip
  | Abort
deriving DecidableEq, Repr

/-- PreparationError from src/workflow_runner/runner.rs. -/
inductive PreparationError where
  | UnableToCreateScratchpad
  | UnableToCopySourceFile
deriving DecidableEq, Repr

/-- CompletionError from src/workflow_runner/runner.rs. -/
inductive CompletionError where
  | UnableToMoveFile
deriving DecidableEq, Repr

/-- RunnerError from src/workflow_runner/runner.rs. -/
inductive RunnerError where
  | PreparationFailed (e : PreparationError)
  | ProbeAborted
  | CompletionFailed (e : CompletionError)
deriving DecidableEq, Repr

/-- Outcome of Rust code that can either panic (an expect or unwrap
failing, which unwinds the worker thread) or produce a value. -/
inductive PRes (α : Type) where
  | panicked (msg : String)
  | ok (a : α)
deriving DecidableEq, Repr

/-- Outcome of a fallible runner step: a panic, a typed error, or a value. -/
inductive Res (ε : Type) (α : Type) where
  | panicked (msg : String)
  | err (e : ε)
  | ok (a : α)
deriving DecidableEq, Repr

/-! ### Path helpers and src/workflow_runner/util.rs -/

/-- Split a character list on the path separator. -/
def splitOnSlash : List Char → List (List Char)
  | [] => [[]]
  | c :: rest =>
    let r := splitOnSlash rest
    if c = '/' then [] :: r
    else
      match r with
      | [] => [[c]]
      | g :: gs => (c :: g) :: gs

/-- Model of Path::file_name: the final non-empty path component, skipping
"." components; none for an empty path or a path ending in "..". -/
def rustFileName (p : String) : Option (List Char) :=
  let comps := (splitOnSlash p.toList).filter (fun c => ¬ (c = [] ∨ c = ['.']))
  match comps.getLast? with
  | none => none
  | some c => if c = ['.', '.'] then none else some c

/-- Pair each list element with its index, starting at k (the semantics of
iterator enumeration). -/
def indexedFrom {α : Type} (k : Nat) : List α → List (Nat × α)
  | [] => []
  | a :: as => (k, a) :: indexedFrom (k + 1) as

/-- Pair each list element with its index from 0. -/
def indexed {α : Type} (l : List α) : List (Nat × α) := indexedFrom 0 l

/-- Index of the last dot of a file name that is not in leading position
(the split point used by Path::file_stem and Path::extension). -/
def lastDotIdx (cs : List Char) : Option Nat :=
  (((indexed cs).filter (fun ic => 1 ≤ ic.1 ∧ ic.2 = '.')).map (fun ic => ic.1)).getLast?

/-- Model of the Rust split of a file name into (file_stem, extension):
no embedded dot (or only a leading dot) means no extension, otherwise
split at the final dot. -/
def stemExt (name : List Char) : List Char × Option (List Char) :=
  match lastDotIdx name with
  | none => (name, none)
  | some i => (name.take i, some (name.drop (i + 1)))

/-- Model of Path::file_stem on a path string. -/
def rustFileStem (p : String) : Option (List Char) :=
  (rustFileName p).map (fun n => (stemExt n).1)

/-- Model of Path::extension on a path string. -/
def rustExtension (p : String) : Option (List Char) :=
  (rustFileName p).bind (fun n => (stemExt n).2)

/-- generate_target_file from src/workflow_runner/util.rs.  The random
UUID is supplied by the environment.  The two Rust expect calls turn a
missing file name or extension into a panic. -/
def generate_target_file (uuid : String) (source_file_path : String) : PRes String :=
  match rustFileName source_file_path with
  | none => .panicked "failed to take file name"
  | some name =>
    match (stemExt name).2 with
    | none => .panicked "failed to take file extension"
    | some ext =>
      .ok (String.mk (stemExt name).1 ++ "-" ++ uuid ++ "." ++ String.mk ext)

/-- generate_output_file_name from src/workflow_runner/util.rs. -/
def generate_output_file_name (target_file_name : String) : PRes String :=
  match rustFileName target_file_name with
  | none => .panicked "failed to take file name"
  | some name =>
    match (stemExt name).2 with
    | none => .panicked "failed to take file extension"
    | some ext =>
      .ok (String.mk (stemExt name).1 ++ ".out." ++ String.mk ext)

/-- Model of Path::join for a directory and a relative file name. -/
def pathJoin (dir name : String) : String := dir ++ "/" ++ name

/-! ### Runner state, events and environment (src/workflow_runner/runner.rs) -/

/-- Context from src/workflow_runner/runner.rs. -/
structure Context where
  scratchpad_directory : FsPath
  source_file_path : FsPath
  input_file : FsPath
  output_file : FsPath
deriving DecidableEq, Repr

/-- Observable events of one run, used to state ordering and frame
properties.  A warned event is the tracing warn call in run_tasks. -/
inductive Event where
  | mkdir (d : FsPath)
  | copied (src dst : FsPath)
  | probed (idx : Nat)
  | execTask (idx : Nat) (wrote : Option FsPath)
  | renamed (src dst : FsPath) (success : Bool)
  | warned (idx : Nat)
deriving DecidableEq, Repr

/-- Runner-visible state: the file system, the event trace, and a counter
of rename calls (used to let the environment decide which rename calls
fail with an I/O error). -/
structure St where
  fs : FS
  trace : List Event
  renameCount : Nat
deriving DecidableEq, Repr

/-- Append an event to the trace. -/
def St.emit (st : St) (e : Event) : St := { st with trace := st.trace ++ [e] }

/-- Environment of one run: all external nondeterminism.  Tasks and
probes are subprocesses; their observable behaviour towards the runner
is indexed by the position of the task in the workflow task list
(each task is probed at most once and executed at most once per run).
probeOutcome is the ProbeResult that task.run_probe returns,
taskOutput is what the task command writes to the expected output file
(none when it writes nothing there), and taskReport is the report
task.run_task returns.  Runs in which a subprocess panics the worker
are modelled separately at the custom task level. -/
structure RunEnv where
  createDirFails : Bool
  copyFails : Bool
  uuid : String
  probeOutcome : Nat → ProbeResult
  taskOutput : Nat → Option Content
  taskReport : Nat → TaskReport
  renameFails : Nat → Bool

/-- One fs::rename call: the environment may fail it, otherwise it fails
exactly when the source path is missing. -/
def doRename (env : RunEnv) (st : St) (src dst : FsPath) : Bool × St :=
  let k := st.renameCount
  let st1 : St := { st with renameCount := k + 1 }
  if env.renameFails k then (false, st1.emit (.renamed src dst false))
  else
    match st1.fs.renameFile src dst with
    | none => (false, st1.emit (.renamed src dst false))
    | some fs2 => (true, ({ st1 with fs := fs2 }).emit (.renamed src dst true))

/-- Runner::prepare from src/workflow_runner/runner.rs: create the
scratchpad directory, derive the staging input file name, copy the
source file in, and derive the output file name. -/
def prepare (env : RunEnv) (st : St) (scratchpad_directory source_file_path : FsPath) :
    Res PreparationError Context × St :=
  if env.createDirFails then (.err .UnableToCreateScratchpad, st)
  else
    let st1 := st.emit (.mkdir scratchpad_directory)
    match generate_target_file env.uuid source_file_path with
    | .panicked m => (.panicked m, st1)
    | .ok input_file_name =>
      let input_file := pathJoin scratchpad_directory input_file_name
      if env.copyFails then (.err .UnableToCopySourceFile, st1)
      else
        match st1.fs.read source_file_path with
        | none => (.err .UnableToCopySourceFile, st1)
        | some content =>
          let st2 := ({ st1 with fs := st1.fs.write input_file content }).emit
            (.copied source_file_path input_file)
          match generate_output_file_name input_file_name with
          | .panicked m => (.panicked m, st2)
          | .ok output_name =>
            let output_file := pathJoin scratchpad_directory output_name
            (.ok ⟨scratchpad_directory, source_file_path, input_file, output_file⟩, st2)

/-- Runner::probe_tasks from src/workflow_runner/runner.rs: probe every
task in order, fail with ProbeAborted when any probe returned Abort,
otherwise keep the tasks whose probe returned Run. -/
def probe_tasks (env : RunEnv) (st : St) (tasks : List Task) :
    Res RunnerError (List (Nat × Task)) × St :=
  let indexedTasks := indexed tasks
  let st1 := indexedTasks.foldl (fun s it => s.emit (.probed it.1)) st
  let probeResults := indexedTasks.map (fun it => (it, env.probeOutcome it.1))
  let hasAbortedProbeResult := probeResults.any (fun pr => decide (pr.2 = ProbeResult.Abort))
  if hasAbortedProbeResult then (.err .ProbeAborted, st1)
  else
    let tasksToRun := (probeResults.filter (fun pr =>
      match pr.2 with
      | .Run => true
      | .Skip => false
      | .Abort => false)).map (fun pr => pr.1)
    (.ok tasksToRun, st1)

/-- Loop body of Runner::run_tasks: run each surviving task, then, when
the expected output file does not exist, continue with the next task
without recording anything; when it exists, rename it over the input
file, warn if that rename failed, and push the report. -/
def run_tasks_go (env : RunEnv) (ctx : Context) :
    List (Nat × Task) → St → List TaskReport → List TaskReport × St
  | [], st, acc => (acc, st)
  | it :: rest, st, acc =>
    let report := env.taskReport it.1
    let st1 :=
      match env.taskOutput it.1 with
      | some c => ({ st with fs := st.fs.write ctx.output_file c }).emit
          (.execTask it.1 (some ctx.output_file))
      | none => st.emit (.execTask it.1 none)
    if st1.fs.existsFile ctx.output_file then
      let moved := doRename env st1 ctx.output_file ctx.input_file
      let st3 := if moved.1 then moved.2 else moved.2.emit (.warned it.1)
      run_tasks_go env ctx rest st3 (acc ++ [report])
    else
      run_tasks_go env ctx rest st1 acc

/-- Runner::run_tasks from src/workflow_runner/runner.rs. -/
def run_tasks (env : RunEnv) (ctx : Context) (tasks : List (Nat × Task)) (st : St) :
    Res RunnerError (List TaskReport) × St :=
  let r := run_tasks_go env ctx tasks st []
  (.ok r.1, r.2)

/-- Runner::complete_run from src/workflow_runner/runner.rs: rename the
staged input file over the original source file. -/
def complete_run (env : RunEnv) (st : St) (ctx : Context) : Res CompletionError Unit × St :=
  let moved := doRename env st ctx.input_file ctx.source_file_path
  if moved.1 then (.ok (), moved.2) else (.err .UnableToMoveFile, moved.2)

/-- Runner::run_workflow from src/workflow_runner/runner.rs: prepare,
probe, return early with an empty report when no task survived probing,
otherwise run the surviving tasks and complete the run. -/
def run_workflow (env : RunEnv) (workflow : Workflow) (source_file : FsPath) (fs0 : FS) :
    Res RunnerError WorkflowReport × St :=
  let st0 : St := ⟨fs0, [], 0⟩
  match prepare env st0 workflow.scratchpad_directory source_file with
  | (.panicked m, st) => (.panicked m, st)
  | (.err e, st) => (.err (.PreparationFailed e), st)
  | (.ok ctx, st) =>
    match probe_tasks env st workflow.tasks with
    | (.panicked m, st1) => (.panicked m, st1)
    | (.err e, st1) => (.err e, st1)
    | (.ok tasks_to_run, st1) =>
      if tasks_to_run.isEmpty then (.ok (WorkflowReport.new workflow), st1)
      else
        match run_tasks env ctx tasks_to_run st1 with
        | (.panicked m, st2) => (.panicked m, st2)
        | (.err e, st2) => (.err e, st2)
        | (.ok task_reports, st2) =>
          match complete_run env st2 ctx with
          | (.panicked m, st3) => (.panicked m, st3)
          | (.err e, st3) => (.err (.CompletionFailed e), st3)
          | (.ok _, st3) => (.ok (WorkflowReport.new_with_reports workflow task_reports), st3)

/-! ### Custom task scripts (src/workflow_runner/custom_task.rs) -/

/-- What the operating system does with one run_script invocation: the
spawn fails, the wait fails, or the child runs and terminates with an
exit code (none when terminated by a signal), producing output streams. -/
inductive SpawnBehavior where
  | spawnFails
  | waitFails
  | runs (code : Option Int) (stdout stderr : String)
deriving DecidableEq, Repr

/-- run_script from src/workflow_runner/custom_task.rs.  Its Rust result
type is Result with a String error, but every failure path in its body
is an expect, so it either panics or returns Ok: the error case of the
result is never produced. -/
def run_script (b : SpawnBehavior) : PRes (Except String (Int × String × String)) :=
  match b with
  | .spawnFails => .panicked "failed to spawn child when running script"
  | .waitFails => .panicked "failed to wait for child"
  | .runs none _ _ => .panicked "child was terminal by a signal"
  | .runs (some c) out err => .ok (.ok (c, out, err))

/-- The environment variables the probe subprocess receives
(impl ProbeRunner for CustomTask in src/workflow_runner/custom_task.rs). -/
def probeEnvVars (t : CustomTask) (inputPath : String) : List (String × String) :=
  [("OMZET_INPUT", inputPath), ("OMZET_TASK", t.id)]

/-- The environment variables the task command subprocess receives
(impl TaskRunner for CustomTask in src/workflow_runner/custom_task.rs). -/
def taskEnvVars (inputPath outputPath : String) : List (String × String) :=
  [("OMZET_INPUT", inputPath), ("OMZET_OUTPUT", outputPath)]

/-- CustomTask::run_probe from src/workflow_runner/custom_task.rs: no
probe means Run; otherwise match on the run_script result - exit code 0
is Run, any other exit code is Skip, a run_script error would be Abort. -/
def CustomTask.run_probe (t : CustomTask) (b : SpawnBehavior) : PRes ProbeResult :=
  match t.probe with
  | none => .ok .Run
  | some _ =>
    match run_script b with
    | .panicked m => .panicked m
    | .ok (.ok (c, _, _)) => if c = 0 then .ok .Run else .ok .Skip
    | .ok (.error _) => .ok .Abort

/-- CustomTask::run_task from src/workflow_runner/custom_task.rs: run the
command script and turn the triple into a TaskReport; the expect on the
run_script result propagates a panic. -/
def CustomTask.run_task (_t : CustomTask) (b : SpawnBehavior) : PRes TaskReport :=
  match run_script b with
  | .panicked m => .panicked m
  | .ok (.ok (c, out, err)) => .ok ⟨some c, out, err⟩
  | .ok (.error _) => .panicked "failed to run task script"

/-! ### TaskReport conversion from a process Output (src/job_orchestration.rs) -/

/-- Decidable model of Rust String::from_utf8 validity over raw bytes,
following the UTF-8 byte-range rules. -/
def validUtf8 : List Nat → Bool
  | [] => true
  | b :: rest =>
    if b < 0x80 then validUtf8 rest
    else if 0xC2 ≤ b ∧ b ≤ 0xDF then
      match rest with
      | b2 :: r2 => (0x80 ≤ b2 ∧ b2 ≤ 0xBF) && validUtf8 r2
      | [] => false
    else if b = 0xE0 then
      match rest with
      | b2 :: b3 :: r3 => (0xA0 ≤ b2 ∧ b2 ≤ 0xBF) && ((0x80 ≤ b3 ∧ b3 ≤ 0xBF) && validUtf8 r3)
      | _ => false
    else if (0xE1 ≤ b ∧ b ≤ 0xEC) ∨ b = 0xEE ∨ b = 0xEF then
      match rest with
      | b2 :: b3 :: r3 => (0x80 ≤ b2 ∧ b2 ≤ 0xBF) && ((0x80 ≤ b3 ∧ b3 ≤ 0xBF) && validUtf8 r3)
      | _ => false
    else if b = 0xED then
      match rest with
      | b2 :: b3 :: r3 => (0x80 ≤ b2 ∧ b2 ≤ 0x9F) && ((0x80 ≤ b3 ∧ b3 ≤ 0xBF) && validUtf8 r3)
      | _ => false
    else if b = 0xF0 then
      match rest with
      | b2 :: b3 :: b4 :: r4 => (0x90 ≤ b2 ∧ b2 ≤ 0xBF) &&
          ((0x80 ≤ b3 ∧ b3 ≤ 0xBF) && ((0x80 ≤ b4 ∧ b4 ≤ 0xBF) && validUtf8 r4))
      | _ => false
    else if 0xF1 ≤ b ∧ b ≤ 0xF3 then
      match rest with
      | b2 :: b3 :: b4 :: r4 => (0x80 ≤ b2 ∧ b2 ≤ 0xBF) &&
          ((0x80 ≤ b3 ∧ b3 ≤ 0xBF) && ((0x80 ≤ b4 ∧ b4 ≤ 0xBF) && validUtf8 r4))
      | _ => false
    else if b = 0xF4 then
      match rest with
      | b2 :: b3 :: b4 :: r4 => (0x80 ≤ b2 ∧ b2 ≤ 0x8F) &&
          ((0x80 ≤ b3 ∧ b3 ≤ 0xBF) && ((0x80 ≤ b4 ∧ b4 ≤ 0xBF) && validUtf8 r4))
      | _ => false
    else false

/-- Model of Rust String::from_utf8 on raw bytes: the byte list when it
is valid UTF-8, an error otherwise. -/
def stringFromUtf8 (bs : List Nat) : Option (List Nat) :=
  if validUtf8 bs then some bs else none

/-- impl From of process Output for TaskReport in src/job_orchestration.rs:
the two String::from_utf8 calls are unwrapped with expect, so non-UTF-8
bytes on either stream panic instead of yielding a typed error.  The
report fields are kept as raw bytes here. -/
def taskReportFromOutput (status_code : Option Int) (stdout stderr : List Nat) :
    PRes (Option Int × List Nat × List Nat) :=
  match stringFromUtf8 stdout with
  | none => .panicked "cannot get out of task"
  | some outBytes =>
    match stringFromUtf8 stderr with
    | none => .panicked "cannot get out of task"
    | some errBytes => .ok (status_code, outBytes, errBytes)

/-! ### Job orchestration (src/job_orchestration.rs) -/

/-- JobRequest from src/job_orchestration.rs; equality is structural. -/
structure JobRequest where
  file_path : FsPath
  library : String
  workflow : Workflow
deriving DecidableEq, Repr

/-- JobOrchestrator::handle_incoming_job_requests: drain the channel in
order; discard any request already contained in the queue, append the
rest at the back. -/
def handle_incoming_job_requests (queue incoming : List JobRequest) : List JobRequest :=
  incoming.foldl (fun q j => if j ∈ q then q else q ++ [j]) queue

/-- Orchestrator state: the FIFO queue and the single running-job slot
(current_running_job; the join handle is abstracted away). -/
structure OrchState where
  queue : List JobRequest
  running : Option JobRequest
deriving DecidableEq, Repr

/-- Observable orchestrator events: the warn log in start_job, the spawn
of a worker thread, and the join of a finished worker. -/
inductive OrchEvent where
  | warnedAlreadyRunning
  | spawned (j : JobRequest)
  | joined
deriving DecidableEq, Repr

/-- JobOrchestrator::start_job: refuse (with a warning) when a job is
already running, do nothing when the queue is empty, otherwise pop the
front request and spawn a worker for it. -/
def start_job (st : OrchState) : OrchState × List OrchEvent :=
  if st.running.isSome then (st, [.warnedAlreadyRunning])
  else
    match st.queue with
    | [] => (st, [])
    | j :: rest => (⟨rest, some j⟩, [.spawned j])

/-- JobOrchestrator::handle_runner: start a job when nothing is running;
when something is running and not finished, do nothing; when it is
finished, take and join it (a new job starts only on a later tick). -/
def handle_runner (st : OrchState) (workerFinished : Bool) : OrchState × List OrchEvent :=
  match st.running with
  | none => start_job st
  | some _ =>
    if ¬ workerFinished then (st, [])
    else ({ st with running := none }, [.joined])

/-- One iteration of the JobOrchestrator::start control loop: drain
incoming requests into the queue, then run handle_runner. -/
def tick (st : OrchState) (incoming : List JobRequest) (workerFinished : Bool) :
    OrchState × List OrchEvent :=
  let q := handle_incoming_job_requests st.queue incoming
  handle_runner ⟨q, st.running⟩ workerFinished

/-! ### Trace projections and the specification of output chaining -/

/-- The task index of a task execution event. -/
def execIdx? : Event → Option Nat
  | .execTask i _ => some i
  | _ => none

/-- The task index of a probe event. -/
def probeIdx? : Event → Option Nat
  | .probed i => some i
  | _ => none

/-- Whether an event changes the file at path p: a copy to p, a task
command writing p, or a successful rename into or out of p. -/
def writesTo (p : FsPath) : Event → Bool
  | .mkdir _ => false
  | .copied _ dst => decide (p = dst)
  | .probed _ => false
  | .execTask _ (some q) => decide (p = q)
  | .execTask _ none => false
  | .renamed a b success => success && decide (p = a ∨ p = b)
  | .warned _ => false

/-- Specification of the staged file content after a chain of tasks:
each task that wrote an output replaces the staged content with that
output, each task that wrote nothing leaves it unchanged.  The result is
the output of the last task that produced one, or the starting content
when none did. -/
def chainContents (cur : Content) : List (Option Content) → Content
  | [] => cur
  | o :: os => chainContents (o.getD cur) os

/-- The indices of surviving (probe Run) tasks, in declaration order. -/
def runTasksOf (env : RunEnv) (tasks : List Task) : List (Nat × Task) :=
  (indexed tasks).filter (fun it => decide (env.probeOutcome it.1 = ProbeResult.Run))

/-! ### Concrete fixtures used by witnesses and counterexamples -/

/-- A custom task with no probe. -/
def wTask : Task := Task.Custom ⟨"tid", "a task", none, "cmd"⟩

/-- A one-task workflow. -/
def wWf : Workflow := ⟨"wf", "/scratch", ["mkv"], [wTask]⟩

/-- A workflow with zero tasks. -/
def wWfEmpty : Workflow := ⟨"wf", "/scratch", ["mkv"], []⟩

/-- A two-task workflow. -/
def wWf2 : Workflow := ⟨"wf", "/scratch", ["mkv"], [wTask, wTask]⟩

/-- A file system holding one source file. -/
def wFs : FS := ⟨[("/lib/a.mkv", "ORIG")]⟩

/-- An environment where every probe answers Run and every task writes
its output file; no file system call fails. -/
def wEnv : RunEnv :=
  ⟨false, false, "u1", fun _ => ProbeResult.Run, fun _ => some "OUT",
    fun _ => ⟨some 0, "so", "se"⟩, fun _ => false⟩

/-- Like wEnv, but the task writes no output file. -/
def wEnvNoOut : RunEnv :=
  ⟨false, false, "u1", fun _ => ProbeResult.Run, fun _ => none,
    fun _ => ⟨some 0, "so", "se"⟩, fun _ => false⟩

/-- Like wEnv, but every probe answers Skip. -/
def wEnvSkip : RunEnv :=
  ⟨false, false, "u1", fun _ => ProbeResult.Skip, fun _ => none,
    fun _ => ⟨some 0, "so", "se"⟩, fun _ => false⟩

/-- Like wEnv, but the first probe answers Abort and the rest Run. -/
def wEnvAbort : RunEnv :=
  ⟨false, false, "u1", fun i => if i = 0 then ProbeResult.Abort else ProbeResult.Run,
    fun _ => none, fun _ => ⟨some 0, "so", "se"⟩, fun _ => false⟩

/-- Like wEnv, but the first rename call of the run (the mid-task move
of the output file over the staged input file) fails with an I/O error;
later renames succeed. -/
def wEnvRenameFail : RunEnv :=
  ⟨false, false, "u1", fun _ => ProbeResult.Run, fun _ => some "OUT",
    fun _ => ⟨some 0, "so", "se"⟩, fun k => k == 0⟩

/-- A job request. -/
def wJob : JobRequest := ⟨"/lib/a.mkv", "movies", wWfEmpty⟩

/-- A custom task with a probe script. -/
def wProbeTask : CustomTask := ⟨"tid", "a task", some "probe.sh", "cmd"⟩

/-- An orchestrator state whose running slot is occupied. -/
def wBusy : OrchState := ⟨[wJob], some wJob⟩

theorem read_write (fs : FS) (p : FsPath) (c : Content) (q : FsPath) :
    (fs.write p c).read q = if q = p then some c else fs.read q := by
  show lookupFile ((p, c) :: fs.files) q = _
  rw [lookupFile]
  by_cases h : p = q
  · simp [h]
  · have h2 : ¬ q = p := fun hq => h hq.symm
    simp [h, h2, FS.read]

theorem lookup_removeAll (l : List (FsPath × Content)) (p q : FsPath) :
    lookupFile (removeAllFiles l p) q = if q = p then none else lookupFile l q := by
  induction l with
  | nil =>
    rw [removeAllFiles, lookupFile]
    by_cases h : q = p <;> simp [h]
  | cons e rest ih =>
    rw [removeAllFiles]
    by_cases h1 : e.1 = p
    · rw [if_pos h1, ih, lookupFile]
      by_cases h2 : q = p
      · simp [h2]
      · have h3 : ¬ e.1 = q := by
          rw [h1]
          exact fun hp => h2 hp.symm
        simp [h2, h3]
    · rw [if_neg h1, lookupFile, lookupFile]
      by_cases h2 : e.1 = q
      · have h3 : ¬ q = p := by
          intro hq
          rw [hq] at h2
          exact h1 h2
        simp [h2, h3]
      · simp [h2, ih]

theorem read_remove (fs : FS) (p q : FsPath) :
    (fs.removeFile p).read q = if q = p then none else fs.read q := by
  unfold FS.removeFile FS.read
  exact lookup_removeAll fs.files p q

/-! ### Lemmas about indexing -/

theorem indexedFrom_map_fst {α : Type} (k : Nat) (l : List α) :
    (indexedFrom k l).map (fun it => it.1) = (List.range l.length).map (fun i => k + i) := by
  induction l generalizing k with
  | nil => simp [indexedFrom]
  | cons a as ih =>
    rw [indexedFrom]
    simp only [List.map_cons, List.length_cons, List.range_succ_eq_map, ih, List.map_map]
    congr 1
    apply List.map_congr_left
    intro i _
    simp only [Function.comp_apply]
    omega

theorem indexed_map_fst {α : Type} (l : List α) :
    (indexed l).map (fun it => it.1) = List.range l.length := by
  rw [indexed, indexedFrom_map_fst]
  simp

theorem mem_fst_indexedFrom {α : Type} (l : List α) (k i : Nat) (h : i < l.length) :
    ∃ a, (k + i, a) ∈ indexedFrom k l := by
  induction l generalizing k i with
  | nil => simp at h
  | cons a as ih =>
    match i with
    | 0 => exact ⟨a, by simp [indexedFrom]⟩
    | j + 1 =>
      obtain ⟨b, hb⟩ := ih (k + 1) j (by simpa using Nat.lt_of_succ_lt_succ h)
      refine ⟨b, ?_⟩
      rw [indexedFrom]
      have : k + (j + 1) = (k + 1) + j := by omega
      rw [this]
      exact List.mem_cons_of_mem _ hb

theorem mem_indexedFrom_bound {α : Type} (l : List α) (k : Nat) (it : Nat × α)
    (h : it ∈ indexedFrom k l) : k ≤ it.1 ∧ it.1 < k + l.length := by
  induction l generalizing k with
  | nil => simp [indexedFrom] at h
  | cons a as ih =>
    rw [indexedFrom] at h
    rcases List.mem_cons.mp h with h1 | h1
    · subst h1
      simp
    · have := ih (k + 1) h1
      constructor <;> [omega; (simp only [List.length_cons]; omega)]

/-! ### Characterisation of probe_tasks -/

theorem foldl_emit_probed (l : List (Nat × Task)) (st : St) :
    l.foldl (fun s it => s.emit (.probed it.1)) st =
      { st with trace := st.trace ++ l.map (fun it => Event.probed it.1) } := by
  induction l generalizing st with
  | nil => simp
  | cons a as ih =>
    rw [List.foldl_cons, ih]
    simp [St.emit, List.append_assoc]

theorem any_map_probe (f : Nat → ProbeResult) (l : List (Nat × Task)) :
    ((l.map (fun it => (it, f it.1))).any (fun pr => decide (pr.2 = ProbeResult.Abort))) =
      l.any (fun it => decide (f it.1 = ProbeResult.Abort)) := by
  induction l with
  | nil => rfl
  | cons a as ih => simp only [List.map_cons, List.any_cons, ih]

theorem filter_map_probe (f : Nat → ProbeResult) (l : List (Nat × Task)) :
    ((l.map (fun it => (it, f it.1))).filter (fun pr =>
        match pr.2 with
        | ProbeResult.Run => true
        | ProbeResult.Skip => false
        | ProbeResult.Abort => false)).map (fun pr => pr.1) =
      l.filter (fun it => decide (f it.1 = ProbeResult.Run)) := by
  induction l with
  | nil => rfl
  | cons a as ih =>
    simp only [List.map_cons]
    rcases hf : f a.1 with _ | _ | _ <;> simp [List.filter_cons, hf, ih]

theorem probe_tasks_snd (env : RunEnv) (st : St) (tasks : List Task) :
    (probe_tasks env st tasks).2 =
      { st with trace := st.trace ++ (indexed tasks).map (fun it => Event.probed it.1) } := by
  unfold probe_tasks
  simp only [foldl_emit_probed]
  by_cases h : ((indexed tasks).map (fun it => (it, env.probeOutcome it.1))).any
      (fun pr => decide (pr.2 = ProbeResult.Abort)) <;> simp [h]

theorem renameFile_read (fs : FS) (src dst : FsPath) (fs2 : FS)
    (h : fs.renameFile src dst = some fs2) (q : FsPath) :
    fs2.read q = if q = dst then fs.read src else if q = src then none else fs.read q := by
  unfold FS.renameFile at h
  rcases hc : fs.read src with _ | c
  · rw [hc] at h
    exact absurd h (by simp)
  · rw [hc] at h
    injection h with h
    subst h
    simp [read_write, read_remove, hc]

theorem doRename_spec (env : RunEnv) (st : St) (src dst : FsPath) :
    ((doRename env st src dst).1 = true ∧ ∃ c, st.fs.read src = some c ∧
        env.renameFails st.renameCount = false ∧
        (doRename env st src dst).2 =
          { fs := (st.fs.removeFile src).write dst c,
            trace := st.trace ++ [Event.renamed src dst true],
            renameCount := st.renameCount + 1 }) ∨
    ((doRename env st src dst).1 = false ∧
        (doRename env st src dst).2 =
          { fs := st.fs, trace := st.trace ++ [Event.renamed src dst false],
            renameCount := st.renameCount + 1 }) := by
  unfold doRename
  by_cases hrf : env.renameFails st.renameCount
  · right
    simp [hrf, St.emit]
  · rcases hc : st.fs.read src with _ | c
    · right
      have hrn : ({ st with renameCount := st.renameCount + 1 } : St).fs.renameFile src dst
          = none := by
        unfold FS.renameFile
        rw [show ({ st with renameCount := st.renameCount + 1 } : St).fs = st.fs from rfl, hc]
      simp [hrf, hrn, St.emit]
    · left
      have hrn : ({ st with renameCount := st.renameCount + 1 } : St).fs.renameFile src dst
          = some ((st.fs.removeFile src).write dst c) := by
        unfold FS.renameFile
        rw [show ({ st with renameCount := st.renameCount + 1 } : St).fs = st.fs from rfl, hc]
      constructor
      · simp [hrf, hrn]
      · refine ⟨c, rfl, by simpa using hrf, ?_⟩
        simp [hrf, hrn, St.emit]

theorem doRename_ok (env : RunEnv) (st : St) (src dst : FsPath) (c : Content)
    (hrf : env.renameFails st.renameCount = false)
    (hc : st.fs.read src = some c) :
    doRename env st src dst =
      (true, { fs := (st.fs.removeFile src).write dst c,
               trace := st.trace ++ [Event.renamed src dst true],
               renameCount := st.renameCount + 1 }) := by
  unfold doRename
  have hrn : ({ st with renameCount := st.renameCount + 1 } : St).fs.renameFile src dst
      = some ((st.fs.removeFile src).write dst c) := by
    unfold FS.renameFile
    rw [show ({ st with renameCount := st.renameCount + 1 } : St).fs = st.fs from rfl, hc]
  simp [hrf, hrn, St.emit]

theorem probe_tasks_fst (env : RunEnv) (st : St) (tasks : List Task) :
    (probe_tasks env st tasks).1 =
      if (indexed tasks).any (fun it => decide (env.probeOutcome it.1 = ProbeResult.Abort))
      then Res.err RunnerError.ProbeAborted
      else Res.ok (runTasksOf env tasks) := by
  unfold probe_tasks runTasksOf
  simp only [any_map_probe, filter_map_probe]
  by_cases h : (indexed tasks).any (fun it => decide (env.probeOutcome it.1 = ProbeResult.Abort)) <;>
    simp [h]

/-! ### Characterisation of prepare -/

theorem prepare_spec (env : RunEnv) (st : St) (sp src : FsPath) (iname oname : String)
    (hgt : generate_target_file env.uuid src = .ok iname)
    (hgo : generate_output_file_name iname = .ok oname) :
    (env.createDirFails = true ∧
      prepare env st sp src = (.err .UnableToCreateScratchpad, st)) ∨
    (env.createDirFails = false ∧ env.copyFails = true ∧
      prepare env st sp src = (.err .UnableToCopySourceFile, st.emit (.mkdir sp))) ∨
    (env.createDirFails = false ∧ env.copyFails = false ∧ st.fs.read src = none ∧
      prepare env st sp src = (.err .UnableToCopySourceFile, st.emit (.mkdir sp))) ∨
    (∃ c, env.createDirFails = false ∧ env.copyFails = false ∧ st.fs.read src = some c ∧
      prepare env st sp src =
        (.ok ⟨sp, src, pathJoin sp iname, pathJoin sp oname⟩,
          { fs := st.fs.write (pathJoin sp iname) c,
            trace := st.trace ++ [Event.mkdir sp, Event.copied src (pathJoin sp iname)],
            renameCount := st.renameCount })) := by
  by_cases hcd : env.createDirFails
  · exact Or.inl ⟨hcd, by simp [prepare, hcd]⟩
  · by_cases hcp : env.copyFails
    · refine Or.inr (Or.inl ⟨by simpa using hcd, hcp, ?_⟩)
      simp [prepare, hcd, hcp, hgt]
    · rcases hread : st.fs.read src with _ | c
      · refine Or.inr (Or.inr (Or.inl ⟨by simpa using hcd, by simpa using hcp, rfl, ?_⟩))
        simp [prepare, hcd, hcp, hgt, St.emit, hread]
      · refine Or.inr (Or.inr (Or.inr ⟨c, by simpa using hcd, by simpa using hcp, rfl, ?_⟩))
        simp [prepare, hcd, hcp, hgt, hgo, St.emit, hread]

/-! ### Step equations and characterisation of run_tasks -/

theorem run_tasks_go_step_skip (env : RunEnv) (ctx : Context) (it : Nat × Task)
    (rest : List (Nat × Task)) (st : St) (acc : List TaskReport)
    (h1 : env.taskOutput it.1 = none)
    (h2 : st.fs.read ctx.output_file = none) :
    run_tasks_go env ctx (it :: rest) st acc =
      run_tasks_go env ctx rest (st.emit (.execTask it.1 none)) acc := by
  rw [run_tasks_go]
  simp [h1, FS.existsFile, St.emit, h2]

theorem run_tasks_go_step_stale (env : RunEnv) (ctx : Context) (it : Nat × Task)
    (rest : List (Nat × Task)) (st : St) (acc : List TaskReport) (c0 : Content)
    (h1 : env.taskOutput it.1 = none)
    (h2 : st.fs.read ctx.output_file = some c0) :
    run_tasks_go env ctx (it :: rest) st acc =
      run_tasks_go env ctx rest
        (if (doRename env (st.emit (.execTask it.1 none)) ctx.output_file ctx.input_file).1 then
          (doRename env (st.emit (.execTask it.1 none)) ctx.output_file ctx.input_file).2
         else
          ((doRename env (st.emit (.execTask it.1 none)) ctx.output_file
            ctx.input_file).2.emit (.warned it.1)))
        (acc ++ [env.taskReport it.1]) := by
  rw [run_tasks_go]
  simp [h1, FS.existsFile, St.emit, h2]

theorem run_tasks_go_step_out (env : RunEnv) (ctx : Context) (it : Nat × Task)
    (rest : List (Nat × Task)) (st : St) (acc : List TaskReport) (c : Content)
    (h1 : env.taskOutput it.1 = some c) :
    run_tasks_go env ctx (it :: rest) st acc =
      run_tasks_go env ctx rest
        (if (doRename env (({ st with fs := st.fs.write ctx.output_file c }).emit
              (.execTask it.1 (some ctx.output_file))) ctx.output_file ctx.input_file).1 then
          (doRename env (({ st with fs := st.fs.write ctx.output_file c }).emit
              (.execTask it.1 (some ctx.output_file))) ctx.output_file ctx.input_file).2
         else
          ((doRename env (({ st with fs := st.fs.write ctx.output_file c }).emit
              (.execTask it.1 (some ctx.output_file))) ctx.output_file
              ctx.input_file).2.emit (.warned it.1)))
        (acc ++ [env.taskReport it.1]) := by
  rw [run_tasks_go]
  simp [h1, FS.existsFile, St.emit, read_write]

theorem run_tasks_go_frame (env : RunEnv) (ctx : Context) (p : FsPath)
    (hpi : p ≠ ctx.input_file) (hpo : p ≠ ctx.output_file) :
    ∀ (tasks : List (Nat × Task)) (st : St) (acc : List TaskReport),
      (run_tasks_go env ctx tasks st acc).2.fs.read p = st.fs.read p := by
  intro tasks
  induction tasks with
  | nil =>
    intro st acc
    rfl
  | cons it rest ih =>
    intro st acc
    rcases hto : env.taskOutput it.1 with _ | c
    · rcases hout : st.fs.read ctx.output_file with _ | c0
      · rw [run_tasks_go_step_skip env ctx it rest st acc hto hout, ih]
        rfl
      · rw [run_tasks_go_step_stale env ctx it rest st acc c0 hto hout]
        rcases doRename_spec env (st.emit (.execTask it.1 none)) ctx.output_file
            ctx.input_file with ⟨hm, c2, _, _, hst⟩ | ⟨hm, hst⟩ <;>
          simp only [St.emit] at hm hst <;>
            simp [hm, hst, ih, St.emit, read_write, read_remove, hpi, hpo]
    · rw [run_tasks_go_step_out env ctx it rest st acc c hto]
      rcases doRename_spec env (({ st with fs := st.fs.write ctx.output_file c }).emit
          (.execTask it.1 (some ctx.output_file))) ctx.output_file
          ctx.input_file with ⟨hm, c2, _, _, hst⟩ | ⟨hm, hst⟩ <;>
        simp only [St.emit] at hm hst <;>
          simp [hm, hst, ih, St.emit, read_write, read_remove, hpi, hpo]

theorem run_tasks_go_out (env : RunEnv) (ctx : Context) :
    ∀ (tasks : List (Nat × Task)) (st : St) (acc : List TaskReport),
      ∃ tr extra,
        (run_tasks_go env ctx tasks st acc).2.trace = st.trace ++ tr ∧
        (run_tasks_go env ctx tasks st acc).1 = acc ++ extra ∧
        tr.filterMap execIdx? = tasks.map (fun it => it.1) ∧
        tr.filterMap probeIdx? = [] ∧
        (∀ e ∈ tr, ∀ q, writesTo q e = true → q = ctx.input_file ∨ q = ctx.output_file) ∧
        (∀ r ∈ extra, ∃ i, (∃ t, (i, t) ∈ tasks) ∧ r = env.taskReport i) := by
  intro tasks
  induction tasks with
  | nil =>
    intro st acc
    exact ⟨[], [], by simp [run_tasks_go], by simp [run_tasks_go], rfl, rfl,
      by simp, by simp⟩
  | cons it rest ih =>
    intro st acc
    rcases hto : env.taskOutput it.1 with _ | c
    · rcases hout : st.fs.read ctx.output_file with _ | c0
      · rw [run_tasks_go_step_skip env ctx it rest st acc hto hout]
        obtain ⟨tr0, extra0, htr0, hrep0, hex0, hpr0, hw0, hmem0⟩ :=
          ih (st.emit (.execTask it.1 none)) acc
        refine ⟨Event.execTask it.1 none :: tr0, extra0, ?_, hrep0, ?_, ?_, ?_, ?_⟩
        · rw [htr0]
          simp [St.emit]
        · simp [List.filterMap_cons, execIdx?, hex0]
        · simp [List.filterMap_cons, probeIdx?, hpr0]
        · intro e he q hq
          rcases List.mem_cons.mp he with h | h
          · subst h
            simp [writesTo] at hq
          · exact hw0 e h q hq
        · intro r hr
          obtain ⟨i, ⟨t, hit⟩, hri⟩ := hmem0 r hr
          exact ⟨i, ⟨t, List.mem_cons_of_mem _ hit⟩, hri⟩
      · rw [run_tasks_go_step_stale env ctx it rest st acc c0 hto hout]
        rcases doRename_spec env (st.emit (.execTask it.1 none)) ctx.output_file
            ctx.input_file with ⟨hm, c2, _, _, hst⟩ | ⟨hm, hst⟩
        · rw [hm, if_pos rfl]
          obtain ⟨tr0, extra0, htr0, hrep0, hex0, hpr0, hw0, hmem0⟩ :=
            ih (doRename env (st.emit (.execTask it.1 none)) ctx.output_file
              ctx.input_file).2 (acc ++ [env.taskReport it.1])
          refine ⟨Event.execTask it.1 none ::
              Event.renamed ctx.output_file ctx.input_file true :: tr0,
            env.taskReport it.1 :: extra0, ?_, ?_, ?_, ?_, ?_, ?_⟩
          · rw [htr0, hst]
            simp [St.emit]
          · rw [hrep0]
            simp
          · simp [List.filterMap_cons, execIdx?, hex0]
          · simp [List.filterMap_cons, probeIdx?, hpr0]
          · intro e he q hq
            rcases List.mem_cons.mp he with h | h
            · subst h
              simp [writesTo] at hq
            rcases List.mem_cons.mp h with h2 | h2
            · subst h2
              simp [writesTo] at hq
              rcases hq with h3 | h3
              · exact Or.inr h3
              · exact Or.inl h3
            · exact hw0 e h2 q hq
          · intro r hr
            rcases List.mem_cons.mp hr with h | h
            · exact ⟨it.1, ⟨it.2, by simp⟩, h⟩
            · obtain ⟨i, ⟨t, hit⟩, hri⟩ := hmem0 r h
              exact ⟨i, ⟨t, List.mem_cons_of_mem _ hit⟩, hri⟩
        · rw [hm, if_neg (by simp)]
          obtain ⟨tr0, extra0, htr0, hrep0, hex0, hpr0, hw0, hmem0⟩ :=
            ih ((doRename env (st.emit (.execTask it.1 none)) ctx.output_file
              ctx.input_file).2.emit (.warned it.1)) (acc ++ [env.taskReport it.1])
          refine ⟨Event.execTask it.1 none ::
              Event.renamed ctx.output_file ctx.input_file false ::
              Event.warned it.1 :: tr0,
            env.taskReport it.1 :: extra0, ?_, ?_, ?_, ?_, ?_, ?_⟩
          · rw [htr0, hst]
            simp [St.emit]
          · rw [hrep0]
            simp
          · simp [List.filterMap_cons, execIdx?, hex0]
          · simp [List.filterMap_cons, probeIdx?, hpr0]
          · intro e he q hq
            rcases List.mem_cons.mp he with h | h
            · subst h
              simp [writesTo] at hq
            rcases List.mem_cons.mp h with h2 | h2
            · subst h2
              simp [writesTo] at hq
            rcases List.mem_cons.mp h2 with h3 | h3
            · subst h3
              simp [writesTo] at hq
            · exact hw0 e h3 q hq
          · intro r hr
            rcases List.mem_cons.mp hr with h | h
            · exact ⟨it.1, ⟨it.2, by simp⟩, h⟩
            · obtain ⟨i, ⟨t, hit⟩, hri⟩ := hmem0 r h
              exact ⟨i, ⟨t, List.mem_cons_of_mem _ hit⟩, hri⟩
    · rw [run_tasks_go_step_out env ctx it rest st acc c hto]
      rcases doRename_spec env (({ st with fs := st.fs.write ctx.output_file c }).emit
          (.execTask it.1 (some ctx.output_file))) ctx.output_file
          ctx.input_file with ⟨hm, c2, _, _, hst⟩ | ⟨hm, hst⟩
      · rw [hm, if_pos rfl]
        obtain ⟨tr0, extra0, htr0, hrep0, hex0, hpr0, hw0, hmem0⟩ :=
          ih (doRename env (({ st with fs := st.fs.write ctx.output_file c }).emit
            (.execTask it.1 (some ctx.output_file))) ctx.output_file
            ctx.input_file).2 (acc ++ [env.taskReport it.1])
        refine ⟨Event.execTask it.1 (some ctx.output_file) ::
            Event.renamed ctx.output_file ctx.input_file true :: tr0,
          env.taskReport it.1 :: extra0, ?_, ?_, ?_, ?_, ?_, ?_⟩
        · rw [htr0, hst]
          simp [St.emit]
        · rw [hrep0]
          simp
        · simp [List.filterMap_cons, execIdx?, hex0]
        · simp [List.filterMap_cons, probeIdx?, hpr0]
        · intro e he q hq
          rcases List.mem_cons.mp he with h | h
          · subst h
            simp [writesTo] at hq
            exact Or.inr hq
          rcases List.mem_cons.mp h with h2 | h2
          · subst h2
            simp [writesTo] at hq
            rcases hq with h3 | h3
            · exact Or.inr h3
            · exact Or.inl h3
          · exact hw0 e h2 q hq
        · intro r hr
          rcases List.mem_cons.mp hr with h | h
          · exact ⟨it.1, ⟨it.2, by simp⟩, h⟩
          · obtain ⟨i, ⟨t, hit⟩, hri⟩ := hmem0 r h
            exact ⟨i, ⟨t, List.mem_cons_of_mem _ hit⟩, hri⟩
      · rw [hm, if_neg (by simp)]
        obtain ⟨tr0, extra0, htr0, hrep0, hex0, hpr0, hw0, hmem0⟩ :=
          ih ((doRename env (({ st with fs := st.fs.write ctx.output_file c }).emit
            (.execTask it.1 (some ctx.output_file))) ctx.output_file
            ctx.input_file).2.emit (.warned it.1)) (acc ++ [env.taskReport it.1])
        refine ⟨Event.execTask it.1 (some ctx.output_file) ::
            Event.renamed ctx.output_file ctx.input_file false ::
            Event.warned it.1 :: tr0,
          env.taskReport it.1 :: extra0, ?_, ?_, ?_, ?_, ?_, ?_⟩
        · rw [htr0, hst]
          simp [St.emit]
        · rw [hrep0]
          simp
        · simp [List.filterMap_cons, execIdx?, hex0]
        · simp [List.filterMap_cons, probeIdx?, hpr0]
        · intro e he q hq
          rcases List.mem_cons.mp he with h | h
          · subst h
            simp [writesTo] at hq
            exact Or.inr hq
          rcases List.mem_cons.mp h with h2 | h2
          · subst h2
            simp [writesTo] at hq
          rcases List.mem_cons.mp h2 with h3 | h3
          · subst h3
            simp [writesTo] at hq
          · exact hw0 e h3 q hq
        · intro r hr
          rcases List.mem_cons.mp hr with h | h
          · exact ⟨it.1, ⟨it.2, by simp⟩, h⟩
          · obtain ⟨i, ⟨t, hit⟩, hri⟩ := hmem0 r h
            exact ⟨i, ⟨t, List.mem_cons_of_mem _ hit⟩, hri⟩

theorem run_tasks_go_chain (env : RunEnv) (ctx : Context)
    (hio : ctx.input_file ≠ ctx.output_file)
    (hrf : ∀ k, env.renameFails k = false) :
    ∀ (tasks : List (Nat × Task)) (st : St) (acc : List TaskReport) (cur : Content),
      st.fs.read ctx.input_file = some cur →
      st.fs.read ctx.output_file = none →
      (run_tasks_go env ctx tasks st acc).2.fs.read ctx.input_file =
          some (chainContents cur (tasks.map (fun it => env.taskOutput it.1))) ∧
      (run_tasks_go env ctx tasks st acc).2.fs.read ctx.output_file = none := by
  intro tasks
  induction tasks with
  | nil =>
    intro st acc cur hin hout
    exact ⟨by simpa [run_tasks_go, chainContents] using hin,
      by simpa [run_tasks_go] using hout⟩
  | cons it rest ih =>
    intro st acc cur hin hout
    rcases hto : env.taskOutput it.1 with _ | c
    · rw [run_tasks_go_step_skip env ctx it rest st acc hto hout]
      have h1 : (st.emit (.execTask it.1 none)).fs.read ctx.input_file = some cur := hin
      have h2 : (st.emit (.execTask it.1 none)).fs.read ctx.output_file = none := hout
      have := ih (st.emit (.execTask it.1 none)) acc cur h1 h2
      simpa [chainContents, hto] using this
    · rw [run_tasks_go_step_out env ctx it rest st acc c hto]
      have hbase : (({ st with fs := st.fs.write ctx.output_file c }).emit
          (.execTask it.1 (some ctx.output_file))).fs.read ctx.output_file = some c := by
        simp [St.emit, read_write]
      have hdr := doRename_ok env (({ st with fs := st.fs.write ctx.output_file c }).emit
        (.execTask it.1 (some ctx.output_file))) ctx.output_file ctx.input_file c
        (hrf _) hbase
      have hm1 : (doRename env (({ st with fs := st.fs.write ctx.output_file c }).emit
          (.execTask it.1 (some ctx.output_file))) ctx.output_file ctx.input_file).1 = true := by
        rw [hdr]
      split
      · have hin2 : (doRename env (({ st with fs := st.fs.write ctx.output_file c }).emit
            (.execTask it.1 (some ctx.output_file))) ctx.output_file
              ctx.input_file).2.fs.read ctx.input_file = some c := by
          rw [hdr]
          simp [read_write]
        have hout2 : (doRename env (({ st with fs := st.fs.write ctx.output_file c }).emit
            (.execTask it.1 (some ctx.output_file))) ctx.output_file
              ctx.input_file).2.fs.read ctx.output_file = none := by
          rw [hdr]
          simp [read_write, read_remove, Ne.symm hio]
        have := ih (doRename env (({ st with fs := st.fs.write ctx.output_file c }).emit
            (.execTask it.1 (some ctx.output_file))) ctx.output_file ctx.input_file).2
          (acc ++ [env.taskReport it.1]) c hin2 hout2
        simpa [chainContents, hto] using this
      · next h =>
          exact absurd hm1 h

/-! ### Characterisation of complete_run -/

theorem complete_run_cases (env : RunEnv) (st : St) (ctx : Context) :
    ((complete_run env st ctx).1 = .ok () ∧ ∃ c, st.fs.read ctx.input_file = some c ∧
        (complete_run env st ctx).2 =
          { fs := (st.fs.removeFile ctx.input_file).write ctx.source_file_path c,
            trace := st.trace ++ [Event.renamed ctx.input_file ctx.source_file_path true],
            renameCount := st.renameCount + 1 }) ∨
    ((complete_run env st ctx).1 = .err .UnableToMoveFile ∧
        (complete_run env st ctx).2 =
          { fs := st.fs,
            trace := st.trace ++ [Event.renamed ctx.input_file ctx.source_file_path false],
            renameCount := st.renameCount + 1 }) := by
  rcases doRename_spec env st ctx.input_file ctx.source_file_path with
    ⟨hm, c, hc, _, hst⟩ | ⟨hm, hst⟩
  · refine Or.inl ⟨?_, c, hc, ?_⟩ <;> simp [complete_run, hm, hst]
  · refine Or.inr ⟨?_, ?_⟩ <;> simp [complete_run, hm, hst]

/-! ### End-to-end equations for run_workflow -/

theorem pair_eq {α β : Type} (x : α × β) (a : α) (b : β) (h1 : x.1 = a) (h2 : x.2 = b) :
    x = (a, b) := by
  cases x
  cases h1
  cases h2
  rfl

theorem probe_tasks_eq (env : RunEnv) (st : St) (tasks : List Task) :
    probe_tasks env st tasks =
      (if (indexed tasks).any (fun it => decide (env.probeOutcome it.1 = ProbeResult.Abort))
        then Res.err RunnerError.ProbeAborted
        else Res.ok (runTasksOf env tasks),
       { st with trace := st.trace ++ (indexed tasks).map (fun it => Event.probed it.1) }) :=
  pair_eq _ _ _ (probe_tasks_fst env st tasks) (probe_tasks_snd env st tasks)

theorem run_workflow_eq_preperr (env : RunEnv) (wf : Workflow) (src : FsPath) (fs0 : FS)
    (e : PreparationError) (stP : St)
    (hpe : prepare env ⟨fs0, [], 0⟩ wf.scratchpad_directory src = (.err e, stP)) :
    run_workflow env wf src fs0 = (.err (.PreparationFailed e), stP) := by
  unfold run_workflow
  simp only [hpe]

theorem run_workflow_eq_abort (env : RunEnv) (wf : Workflow) (src : FsPath) (fs0 : FS)
    (ctx : Context) (stP stQ : St)
    (hpe : prepare env ⟨fs0, [], 0⟩ wf.scratchpad_directory src = (.ok ctx, stP))
    (hab : probe_tasks env stP wf.tasks = (.err .ProbeAborted, stQ)) :
    run_workflow env wf src fs0 = (.err .ProbeAborted, stQ) := by
  unfold run_workflow
  simp only [hpe, hab]

theorem run_workflow_eq_empty (env : RunEnv) (wf : Workflow) (src : FsPath) (fs0 : FS)
    (ctx : Context) (stP stQ : St)
    (hpe : prepare env ⟨fs0, [], 0⟩ wf.scratchpad_directory src = (.ok ctx, stP))
    (hpt : probe_tasks env stP wf.tasks = (.ok [], stQ)) :
    run_workflow env wf src fs0 = (.ok (WorkflowReport.new wf), stQ) := by
  unfold run_workflow
  simp only [hpe, hpt, List.isEmpty_nil, if_true]

theorem run_workflow_eq_run_ok (env : RunEnv) (wf : Workflow) (src : FsPath) (fs0 : FS)
    (ctx : Context) (stP stQ stR stS : St) (ttr : List (Nat × Task))
    (reports : List TaskReport)
    (hpe : prepare env ⟨fs0, [], 0⟩ wf.scratchpad_directory src = (.ok ctx, stP))
    (hpt : probe_tasks env stP wf.tasks = (.ok ttr, stQ))
    (hne : ttr.isEmpty = false)
    (hrt : run_tasks_go env ctx ttr stQ [] = (reports, stR))
    (hcr : complete_run env stR ctx = (.ok (), stS)) :
    run_workflow env wf src fs0 = (.ok (WorkflowReport.new_with_reports wf reports), stS) := by
  have hrt2 : run_tasks env ctx ttr stQ = (.ok reports, stR) := by
    unfold run_tasks
    rw [hrt]
  unfold run_workflow
  simp [hpe, hpt, hne, hrt2, hcr]

theorem run_workflow_eq_run_err (env : RunEnv) (wf : Workflow) (src : FsPath) (fs0 : FS)
    (ctx : Context) (stP stQ stR stS : St) (ttr : List (Nat × Task))
    (reports : List TaskReport) (ce : CompletionError)
    (hpe : prepare env ⟨fs0, [], 0⟩ wf.scratchpad_directory src = (.ok ctx, stP))
    (hpt : probe_tasks env stP wf.tasks = (.ok ttr, stQ))
    (hne : ttr.isEmpty = false)
    (hrt : run_tasks_go env ctx ttr stQ [] = (reports, stR))
    (hcr : complete_run env stR ctx = (.err ce, stS)) :
    run_workflow env wf src fs0 = (.err (.CompletionFailed ce), stS) := by
  have hrt2 : run_tasks env ctx ttr stQ = (.ok reports, stR) := by
    unfold run_tasks
    rw [hrt]
  unfold run_workflow
  simp [hpe, hpt, hne, hrt2, hcr]

theorem filter_writes_probes (p : FsPath) (l : List (Nat × Task)) :
    ((l.map (fun it => Event.probed it.1)).filter (writesTo p)) = [] := by
  rw [List.filter_eq_nil_iff]
  intro a ha
  obtain ⟨it, _, rfl⟩ := List.mem_map.mp ha
  simp [writesTo]

/-- C1 amended: within one run_workflow call the source file is written
at most once, and only by the final rename of complete_run (first
conjunct: the write events on the source path are either none, or
exactly the one successful final rename of the staged input file over
the source); when run_workflow returns any RunnerError the source bytes
equal their original value (second conjunct); and when it succeeds AND
every rename of the run succeeded - without that proviso a failed
mid-task rename can leave the source equal to an earlier staged
content, see the counterexample - the source bytes equal the output of
the last surviving task that produced one, the copied input when no
surviving task did, in particular when zero tasks ran (third
conjunct). -/
theorem run_workflow_atomic_commit
    (env : RunEnv) (wf : Workflow) (src : FsPath) (fs0 : FS) (orig : Content)
    (iname oname : String)
    (hgt : generate_target_file env.uuid src = .ok iname)
    (hgo : generate_output_file_name iname = .ok oname)
    (horig : fs0.read src = some orig)
    (hi : pathJoin wf.scratchpad_directory iname ≠ src)
    (ho : pathJoin wf.scratchpad_directory oname ≠ src)
    (hio : pathJoin wf.scratchpad_directory iname ≠ pathJoin wf.scratchpad_directory oname)
    (hstale : fs0.read (pathJoin wf.scratchpad_directory oname) = none) :
    ((run_workflow env wf src fs0).2.trace.filter (writesTo src) = [] ∨
      (run_workflow env wf src fs0).2.trace.filter (writesTo src) =
        [Event.renamed (pathJoin wf.scratchpad_directory iname) src true]) ∧
    (∀ e, (run_workflow env wf src fs0).1 = Res.err e →
      (run_workflow env wf src fs0).2.fs.read src = some orig) ∧
    ((∀ k, env.renameFails k = false) →
      ∀ rep, (run_workflow env wf src fs0).1 = Res.ok rep →
        (run_workflow env wf src fs0).2.fs.read src =
          some (chainContents orig
            ((runTasksOf env wf.tasks).map (fun it => env.taskOutput it.1)))) := by
  rcases hpp : prepare env ⟨fs0, [], 0⟩ wf.scratchpad_directory src with ⟨pres, stP⟩
  rcases prepare_spec env ⟨fs0, [], 0⟩ wf.scratchpad_directory src iname oname hgt hgo with
    ⟨hcd, hpe⟩ | ⟨hcd, hcp, hpe⟩ | ⟨hcd, hcp, hrd, hpe⟩ | ⟨c, hcd, hcp, hrd, hpe⟩
  · rw [run_workflow_eq_preperr env wf src fs0 _ _ hpe]
    exact ⟨Or.inl rfl, fun e _ => horig, fun _ rep hrep => by simp at hrep⟩
  · rw [run_workflow_eq_preperr env wf src fs0 _ _ hpe]
    refine ⟨Or.inl ?_, fun e _ => horig, fun _ rep hrep => by simp at hrep⟩
    simp [St.emit, writesTo]
  · rw [horig] at hrd
    simp at hrd
  · rw [horig] at hrd
    injection hrd with hco
    subst hco
    rw [hpp] at hpe
    injection hpe with hpe1 hpe2
    subst hpe1
    rcases hq : probe_tasks env stP wf.tasks with ⟨pr2, stQ⟩
    have hpt := probe_tasks_eq env stP wf.tasks
    rw [hq] at hpt
    injection hpt with hpt1 hpt2
    have hqfs : stQ.fs = fs0.write (pathJoin wf.scratchpad_directory iname) orig := by
      rw [hpt2, hpe2]
    have hqtrace : stQ.trace =
        ([Event.mkdir wf.scratchpad_directory,
          Event.copied src (pathJoin wf.scratchpad_directory iname)] ++
          (indexed wf.tasks).map (fun it => Event.probed it.1)) := by
      rw [hpt2, hpe2]
      simp
    have hqreadsrc : stQ.fs.read src = some orig := by
      rw [hqfs, read_write]
      simp [Ne.symm hi, horig]
    have hqfilter : stQ.trace.filter (writesTo src) = [] := by
      rw [hqtrace, List.filter_append, filter_writes_probes]
      simp [writesTo, Ne.symm hi]
    by_cases habort :
        (indexed wf.tasks).any (fun it => decide (env.probeOutcome it.1 = ProbeResult.Abort))
    · rw [if_pos habort] at hpt1
      subst hpt1
      rw [run_workflow_eq_abort env wf src fs0 _ _ _ hpp hq]
      exact ⟨Or.inl hqfilter, fun e _ => hqreadsrc, fun _ rep hrep => by simp at hrep⟩
    · rw [if_neg habort] at hpt1
      subst hpt1
      rcases httr : runTasksOf env wf.tasks with _ | ⟨it0, ttr2⟩
      · rw [httr] at hq
        rw [run_workflow_eq_empty env wf src fs0 _ _ _ hpp hq]
        refine ⟨Or.inl hqfilter, fun e he => by simp at he, fun hrf rep hrep => ?_⟩
        show stQ.fs.read src = _
        rw [hqreadsrc]
        rfl
      · rw [httr] at hq
        rcases hrt : run_tasks_go env
            ⟨wf.scratchpad_directory, src, pathJoin wf.scratchpad_directory iname,
              pathJoin wf.scratchpad_directory oname⟩ (it0 :: ttr2) stQ [] with ⟨reports, stR⟩
        have hframe := run_tasks_go_frame env
          ⟨wf.scratchpad_directory, src, pathJoin wf.scratchpad_directory iname,
            pathJoin wf.scratchpad_directory oname⟩ src (Ne.symm hi) (Ne.symm ho)
          (it0 :: ttr2) stQ []
        rw [hrt] at hframe
        have hRreadsrc : stR.fs.read src = some orig := by
          rw [hframe, hqreadsrc]
        obtain ⟨tr, extra, htr, hrepeq, hexec, hprobe, hw, hmem⟩ := run_tasks_go_out env
          ⟨wf.scratchpad_directory, src, pathJoin wf.scratchpad_directory iname,
            pathJoin wf.scratchpad_directory oname⟩ (it0 :: ttr2) stQ []
        rw [hrt] at htr hrepeq
        have htrnil : tr.filter (writesTo src) = [] := by
          rw [List.filter_eq_nil_iff]
          intro e he hwe
          rcases hw e he src hwe with h | h
          · exact hi h.symm
          · exact ho h.symm
        have hRfilter : stR.trace.filter (writesTo src) = [] := by
          rw [htr, List.filter_append, hqfilter, htrnil]
          rfl
        rcases hcc : complete_run env stR
            ⟨wf.scratchpad_directory, src, pathJoin wf.scratchpad_directory iname,
              pathJoin wf.scratchpad_directory oname⟩ with ⟨cr, stS⟩
        have hcases := complete_run_cases env stR
          ⟨wf.scratchpad_directory, src, pathJoin wf.scratchpad_directory iname,
            pathJoin wf.scratchpad_directory oname⟩
        rw [hcc] at hcases
        rcases hcases with ⟨hc1, c2, hc2, hc3⟩ | ⟨hc1, hc3⟩
        · have hcc2 : complete_run env stR
              ⟨wf.scratchpad_directory, src, pathJoin wf.scratchpad_directory iname,
                pathJoin wf.scratchpad_directory oname⟩ = (.ok (), stS) := by
            rw [hcc]
            exact congrArg (fun z => (z, stS)) hc1
          rw [run_workflow_eq_run_ok env wf src fs0 _ _ _ stR stS (it0 :: ttr2) reports
            hpp hq rfl hrt hcc2]
          refine ⟨Or.inr ?_, fun e he => by simp at he, fun hrf rep hrep => ?_⟩
          · rw [hc3]
            simp only [List.filter_append, hRfilter]
            simp [writesTo]
          · have hchain := run_tasks_go_chain env
              ⟨wf.scratchpad_directory, src, pathJoin wf.scratchpad_directory iname,
                pathJoin wf.scratchpad_directory oname⟩ hio hrf (it0 :: ttr2) stQ [] orig
              (by rw [hqfs, read_write]; simp)
              (by rw [hqfs, read_write]; simp [Ne.symm hio, hstale])
            rw [hrt] at hchain
            have hc2chain : c2 = chainContents orig
                ((it0 :: ttr2).map (fun it => env.taskOutput it.1)) := by
              have h9 := hchain.1
              rw [hc2] at h9
              exact Option.some.inj h9
            rw [hc3]
            show ((stR.fs.removeFile (pathJoin wf.scratchpad_directory iname)).write src
              c2).read src = _
            rw [read_write, hc2chain]
            simp
        · have hcc2 : complete_run env stR
              ⟨wf.scratchpad_directory, src, pathJoin wf.scratchpad_directory iname,
                pathJoin wf.scratchpad_directory oname⟩ = (.err .UnableToMoveFile, stS) := by
            rw [hcc]
            exact congrArg (fun z => (z, stS)) hc1
          rw [run_workflow_eq_run_err env wf src fs0 _ _ _ stR stS (it0 :: ttr2) reports
            .UnableToMoveFile hpp hq rfl hrt hcc2]
          refine ⟨Or.inl ?_, fun e he => ?_, fun hrf rep hrep => by simp at hrep⟩
          · rw [hc3]
            simp only [List.filter_append, hRfilter]
            simp [writesTo]
          · rw [hc3]
            show stR.fs.read src = some orig
            exact hRreadsrc

/-- Common shape of a run after a successful preparation: the prepared
context, the state after probing, and its components. -/
theorem run_workflow_stage (env : RunEnv) (wf : Workflow) (src : FsPath) (fs0 : FS)
    (orig : Content) (iname oname : String)
    (hgt : generate_target_file env.uuid src = .ok iname)
    (hgo : generate_output_file_name iname = .ok oname)
    (hcd : env.createDirFails = false) (hcp : env.copyFails = false)
    (horig : fs0.read src = some orig) :
    ∃ stP stQ,
      prepare env ⟨fs0, [], 0⟩ wf.scratchpad_directory src =
        (.ok ⟨wf.scratchpad_directory, src, pathJoin wf.scratchpad_directory iname,
          pathJoin wf.scratchpad_directory oname⟩, stP) ∧
      probe_tasks env stP wf.tasks =
        ((if (indexed wf.tasks).any (fun it => decide (env.probeOutcome it.1 = ProbeResult.Abort))
          then Res.err RunnerError.ProbeAborted
          else Res.ok (runTasksOf env wf.tasks)), stQ) ∧
      stQ.fs = fs0.write (pathJoin wf.scratchpad_directory iname) orig ∧
      stQ.renameCount = 0 ∧
      stQ.trace = ([Event.mkdir wf.scratchpad_directory,
          Event.copied src (pathJoin wf.scratchpad_directory iname)] ++
        (indexed wf.tasks).map (fun it => Event.probed it.1)) := by
  rcases prepare_spec env ⟨fs0, [], 0⟩ wf.scratchpad_directory src iname oname hgt hgo with
    ⟨hcd2, _⟩ | ⟨_, hcp2, _⟩ | ⟨_, _, hrd, _⟩ | ⟨c, _, _, hrd, hpe⟩
  · rw [hcd] at hcd2
    simp at hcd2
  · rw [hcp] at hcp2
    simp at hcp2
  · rw [horig] at hrd
    simp at hrd
  · rw [horig] at hrd
    injection hrd with hco
    subst hco
    refine ⟨_, _, hpe, probe_tasks_eq env _ wf.tasks, ?_, ?_, ?_⟩ <;> simp

theorem indexedFrom_length {α : Type} (k : Nat) (l : List α) :
    (indexedFrom k l).length = l.length := by
  induction l generalizing k with
  | nil => rfl
  | cons a as ih =>
    rw [indexedFrom]
    simp [ih]

theorem filterMap_probeIdx_probes (l : List (Nat × Task)) :
    (l.map (fun it => Event.probed it.1)).filterMap probeIdx? = l.map (fun it => it.1) := by
  induction l with
  | nil => rfl
  | cons a as ih => simp [probeIdx?, ih]

/-- C1 counterexample: when the mid-task rename of the output file over
the staged input file fails with an I/O error (runner.rs warn path) but
the final rename of complete_run succeeds, run_workflow returns Ok -
complete_run succeeded, as the final successful rename event in the
trace shows - yet the source file holds its original bytes ORIG, not
the output OUT that the one executed task wrote; the claim as stated
(complete_run succeeds implies source bytes equal the last executed
task's output) is therefore false at this input. -/
theorem run_workflow_midrename_commit_cex :
    (run_workflow wEnvRenameFail wWf "/lib/a.mkv" wFs).1 =
      Res.ok (WorkflowReport.new_with_reports wWf [⟨some 0, "so", "se"⟩]) ∧
    (run_workflow wEnvRenameFail wWf "/lib/a.mkv" wFs).2.trace =
      [Event.mkdir "/scratch", Event.copied "/lib/a.mkv" "/scratch/a-u1.mkv",
       Event.probed 0, Event.execTask 0 (some "/scratch/a-u1.out.mkv"),
       Event.renamed "/scratch/a-u1.out.mkv" "/scratch/a-u1.mkv" false,
       Event.warned 0,
       Event.renamed "/scratch/a-u1.mkv" "/lib/a.mkv" true] ∧
    wEnvRenameFail.taskOutput 0 = some "OUT" ∧
    (run_workflow wEnvRenameFail wWf "/lib/a.mkv" wFs).2.fs.read "/lib/a.mkv" =
      some "ORIG" ∧
    ¬ (run_workflow wEnvRenameFail wWf "/lib/a.mkv" wFs).2.fs.read "/lib/a.mkv" =
      some "OUT" := by
  decide

/-- Witness for the atomic-commit theorem at a concrete one-task run. -/
theorem run_workflow_atomic_commit_witness :
    wFs.read "/lib/a.mkv" = some "ORIG" ∧
    ((run_workflow wEnv wWf "/lib/a.mkv" wFs).2.trace.filter (writesTo "/lib/a.mkv") = [] ∨
      (run_workflow wEnv wWf "/lib/a.mkv" wFs).2.trace.filter (writesTo "/lib/a.mkv") =
        [Event.renamed (pathJoin wWf.scratchpad_directory "a-u1.mkv") "/lib/a.mkv" true]) :=
  ⟨by decide,
    (run_workflow_atomic_commit wEnv wWf "/lib/a.mkv" wFs "ORIG" "a-u1.mkv" "a-u1.out.mkv"
      (by decide) (by decide) (by decide) (by decide) (by decide) (by decide) (by decide)).1⟩

/-- C2: when a probe resolves to Abort (and preparation succeeded, so
the probes actually ran), run_workflow fails with ProbeAborted, no task
command is ever invoked (no task execution event is in the trace), and
the source file holds its original bytes. -/
theorem run_workflow_probe_abort
    (env : RunEnv) (wf : Workflow) (src : FsPath) (fs0 : FS) (orig : Content)
    (iname oname : String)
    (hgt : generate_target_file env.uuid src = .ok iname)
    (hgo : generate_output_file_name iname = .ok oname)
    (hcd : env.createDirFails = false) (hcp : env.copyFails = false)
    (horig : fs0.read src = some orig)
    (hi : pathJoin wf.scratchpad_directory iname ≠ src)
    (habort : ∃ i, i < wf.tasks.length ∧ env.probeOutcome i = ProbeResult.Abort) :
    (run_workflow env wf src fs0).1 = Res.err RunnerError.ProbeAborted ∧
    (run_workflow env wf src fs0).2.trace.filterMap execIdx? = [] ∧
    (run_workflow env wf src fs0).2.fs.read src = some orig := by
  obtain ⟨stP, stQ, hpp, hpt, hqfs, hqrc, hqtrace⟩ :=
    run_workflow_stage env wf src fs0 orig iname oname hgt hgo hcd hcp horig
  have hany : (indexed wf.tasks).any
      (fun it => decide (env.probeOutcome it.1 = ProbeResult.Abort)) = true := by
    obtain ⟨i, hlen, habs⟩ := habort
    obtain ⟨a, hmem⟩ := mem_fst_indexedFrom wf.tasks 0 i hlen
    rw [List.any_eq_true]
    exact ⟨(0 + i, a), hmem, by simp [habs]⟩
  rw [if_pos hany] at hpt
  rw [run_workflow_eq_abort env wf src fs0 _ _ _ hpp hpt]
  refine ⟨rfl, ?_, ?_⟩
  · rw [hqtrace]
    simp [execIdx?, probeIdx?]
  · rw [hqfs, read_write]
    simp [Ne.symm hi, horig]

/-- Witness for the probe-abort theorem at a concrete two-task run whose
first probe aborts. -/
theorem run_workflow_probe_abort_witness :
    wEnvAbort.probeOutcome 0 = ProbeResult.Abort ∧
    (run_workflow wEnvAbort wWf2 "/lib/a.mkv" wFs).1 = Res.err RunnerError.ProbeAborted :=
  ⟨by decide,
    (run_workflow_probe_abort wEnvAbort wWf2 "/lib/a.mkv" wFs "ORIG" "a-u1.mkv" "a-u1.out.mkv"
      (by decide) (by decide) rfl rfl (by decide) (by decide)
      ⟨0, by decide, by decide⟩).1⟩

/-- C10: as long as preparation succeeded, the probe of every task is
evaluated exactly once per run - the probe events of the trace are
exactly the indices 0..n-1, in order, even when some probe aborts the
run (the abort check happens only after all probes have been executed);
when some probe resolved to Abort the run then fails with ProbeAborted. -/
theorem run_workflow_probes_all
    (env : RunEnv) (wf : Workflow) (src : FsPath) (fs0 : FS) (orig : Content)
    (iname oname : String)
    (hgt : generate_target_file env.uuid src = .ok iname)
    (hgo : generate_output_file_name iname = .ok oname)
    (hcd : env.createDirFails = false) (hcp : env.copyFails = false)
    (horig : fs0.read src = some orig) :
    (run_workflow env wf src fs0).2.trace.filterMap probeIdx? = List.range wf.tasks.length ∧
    ((∃ i, i < wf.tasks.length ∧ env.probeOutcome i = ProbeResult.Abort) →
      (run_workflow env wf src fs0).1 = Res.err RunnerError.ProbeAborted) := by
  obtain ⟨stP, stQ, hpp, hpt, hqfs, hqrc, hqtrace⟩ :=
    run_workflow_stage env wf src fs0 orig iname oname hgt hgo hcd hcp horig
  have hprobes : stQ.trace.filterMap probeIdx? = List.range wf.tasks.length := by
    rw [hqtrace, List.filterMap_append, filterMap_probeIdx_probes, indexed_map_fst]
    simp [probeIdx?]
  by_cases habort :
      (indexed wf.tasks).any (fun it => decide (env.probeOutcome it.1 = ProbeResult.Abort))
  · rw [if_pos habort] at hpt
    rw [run_workflow_eq_abort env wf src fs0 _ _ _ hpp hpt]
    exact ⟨hprobes, fun _ => rfl⟩
  · have hfalse : (∃ i, i < wf.tasks.length ∧ env.probeOutcome i = ProbeResult.Abort) →
        False := by
      intro hex
      obtain ⟨i, hlen, habs⟩ := hex
      obtain ⟨a, hmem⟩ := mem_fst_indexedFrom wf.tasks 0 i hlen
      exact habort (List.any_eq_true.mpr ⟨(0 + i, a), hmem, by simp [habs]⟩)
    rw [if_neg habort] at hpt
    rcases httr : runTasksOf env wf.tasks with _ | ⟨it0, ttr2⟩
    · rw [httr] at hpt
      rw [run_workflow_eq_empty env wf src fs0 _ _ _ hpp hpt]
      exact ⟨hprobes, fun hex => (hfalse hex).elim⟩
    · rw [httr] at hpt
      rcases hrt : run_tasks_go env
          ⟨wf.scratchpad_directory, src, pathJoin wf.scratchpad_directory iname,
            pathJoin wf.scratchpad_directory oname⟩ (it0 :: ttr2) stQ [] with ⟨reports, stR⟩
      obtain ⟨tr, extra, htr, hrepeq, hexec, hprobe, hw, hmem⟩ := run_tasks_go_out env
        ⟨wf.scratchpad_directory, src, pathJoin wf.scratchpad_directory iname,
          pathJoin wf.scratchpad_directory oname⟩ (it0 :: ttr2) stQ []
      rw [hrt] at htr
      rcases hcc : complete_run env stR
          ⟨wf.scratchpad_directory, src, pathJoin wf.scratchpad_directory iname,
            pathJoin wf.scratchpad_directory oname⟩ with ⟨cr, stS⟩
      have hcases := complete_run_cases env stR
        ⟨wf.scratchpad_directory, src, pathJoin wf.scratchpad_directory iname,
          pathJoin wf.scratchpad_directory oname⟩
      rw [hcc] at hcases
      rcases hcases with ⟨hc1, c2, hc2, hc3⟩ | ⟨hc1, hc3⟩
      · have hcc2 : complete_run env stR
            ⟨wf.scratchpad_directory, src, pathJoin wf.scratchpad_directory iname,
              pathJoin wf.scratchpad_directory oname⟩ = (.ok (), stS) := by
          rw [hcc]
          exact congrArg (fun z => (z, stS)) hc1
        rw [run_workflow_eq_run_ok env wf src fs0 _ _ _ stR stS (it0 :: ttr2) reports
          hpp hpt rfl hrt hcc2]
        refine ⟨?_, fun hex => (hfalse hex).elim⟩
        rw [hc3]
        show (stR.trace ++ _).filterMap probeIdx? = _
        rw [List.filterMap_append, htr, List.filterMap_append, hprobes, hprobe]
        simp [probeIdx?]
      · have hcc2 : complete_run env stR
            ⟨wf.scratchpad_directory, src, pathJoin wf.scratchpad_directory iname,
              pathJoin wf.scratchpad_directory oname⟩ = (.err .UnableToMoveFile, stS) := by
          rw [hcc]
          exact congrArg (fun z => (z, stS)) hc1
        rw [run_workflow_eq_run_err env wf src fs0 _ _ _ stR stS (it0 :: ttr2) reports
          .UnableToMoveFile hpp hpt rfl hrt hcc2]
        refine ⟨?_, fun hex => (hfalse hex).elim⟩
        rw [hc3]
        show (stR.trace ++ _).filterMap probeIdx? = _
        rw [List.filterMap_append, htr, List.filterMap_append, hprobes, hprobe]
        simp [probeIdx?]

/-- Witness for the probes-all theorem: with the first of two probes
aborting, both probes still run (indices 0 and 1 appear) and the run
fails with ProbeAborted. -/
theorem run_workflow_probes_all_witness :
    wFs.read "/lib/a.mkv" = some "ORIG" ∧
    (run_workflow wEnvAbort wWf2 "/lib/a.mkv" wFs).2.trace.filterMap probeIdx? =
      List.range wWf2.tasks.length :=
  ⟨by decide,
    (run_workflow_probes_all wEnvAbort wWf2 "/lib/a.mkv" wFs "ORIG" "a-u1.mkv" "a-u1.out.mkv"
      (by decide) (by decide) rfl rfl (by decide)).1⟩

/-- C9: after a successful preparation and with no aborting probe, the
trace of a run starts with the directory creation, the staging copy and
the probe events of all tasks in declaration order; everything after
that prefix contains no probe event, and its task execution events are
exactly the indices whose probe resolved to Run, in declaration order;
and every task report in a successful report belongs to a task whose
probe resolved to Run (skipped tasks produce no report). -/
theorem run_workflow_order
    (env : RunEnv) (wf : Workflow) (src : FsPath) (fs0 : FS) (orig : Content)
    (iname oname : String)
    (hgt : generate_target_file env.uuid src = .ok iname)
    (hgo : generate_output_file_name iname = .ok oname)
    (hcd : env.createDirFails = false) (hcp : env.copyFails = false)
    (horig : fs0.read src = some orig)
    (hnoabort : ∀ i, i < wf.tasks.length → env.probeOutcome i ≠ ProbeResult.Abort) :
    ((run_workflow env wf src fs0).2.trace.take (2 + wf.tasks.length) =
      [Event.mkdir wf.scratchpad_directory,
       Event.copied src (pathJoin wf.scratchpad_directory iname)] ++
      (indexed wf.tasks).map (fun it => Event.probed it.1)) ∧
    (((run_workflow env wf src fs0).2.trace.drop (2 + wf.tasks.length)).filterMap probeIdx?
      = []) ∧
    (((run_workflow env wf src fs0).2.trace.drop (2 + wf.tasks.length)).filterMap execIdx?
      = (runTasksOf env wf.tasks).map (fun it => it.1)) ∧
    (∀ rep, (run_workflow env wf src fs0).1 = Res.ok rep →
      ∀ r ∈ rep.task_reports, ∃ i, (∃ t, (i, t) ∈ runTasksOf env wf.tasks) ∧
        env.probeOutcome i = ProbeResult.Run ∧ r = env.taskReport i) := by
  obtain ⟨stP, stQ, hpp, hpt, hqfs, hqrc, hqtrace⟩ :=
    run_workflow_stage env wf src fs0 orig iname oname hgt hgo hcd hcp horig
  have hlenpref : ([Event.mkdir wf.scratchpad_directory,
      Event.copied src (pathJoin wf.scratchpad_directory iname)] ++
      (indexed wf.tasks).map (fun it => Event.probed it.1)).length = 2 + wf.tasks.length := by
    simp [indexed, indexedFrom_length]
    omega
  have hnab : (indexed wf.tasks).any
      (fun it => decide (env.probeOutcome it.1 = ProbeResult.Abort)) = false := by
    rw [List.any_eq_false]
    intro it hmem
    have hb := mem_indexedFrom_bound wf.tasks 0 it hmem
    have := hnoabort it.1 (by simpa using hb.2)
    simp [this]
  rw [if_neg (by simp [hnab])] at hpt
  rcases httr : runTasksOf env wf.tasks with _ | ⟨it0, ttr2⟩
  · rw [httr] at hpt
    rw [run_workflow_eq_empty env wf src fs0 _ _ _ hpp hpt]
    refine ⟨?_, ?_, ?_, ?_⟩
    · show stQ.trace.take _ = _
      rw [hqtrace, ← hlenpref, List.take_length]
    · show (stQ.trace.drop _).filterMap probeIdx? = _
      rw [hqtrace, ← hlenpref, List.drop_length]
      rfl
    · show (stQ.trace.drop _).filterMap execIdx? = _
      rw [hqtrace, ← hlenpref, List.drop_length]
      rfl
    · intro rep hrep r hr
      have : rep = WorkflowReport.new wf := by
        have h9 : Res.ok (WorkflowReport.new wf) = Res.ok rep := hrep
        injection h9 with h9
        exact h9.symm
      subst this
      simp [WorkflowReport.new] at hr
  · rw [httr] at hpt
    rcases hrt : run_tasks_go env
        ⟨wf.scratchpad_directory, src, pathJoin wf.scratchpad_directory iname,
          pathJoin wf.scratchpad_directory oname⟩ (it0 :: ttr2) stQ [] with ⟨reports, stR⟩
    obtain ⟨tr, extra, htr, hrepeq, hexec, hprobe, hw, hmem⟩ := run_tasks_go_out env
      ⟨wf.scratchpad_directory, src, pathJoin wf.scratchpad_directory iname,
        pathJoin wf.scratchpad_directory oname⟩ (it0 :: ttr2) stQ []
    rw [hrt] at htr hrepeq
    have hmemrun : ∀ r ∈ reports, ∃ i, (∃ t, (i, t) ∈ (it0 :: ttr2)) ∧
        env.probeOutcome i = ProbeResult.Run ∧ r = env.taskReport i := by
      intro r hr
      have hre : reports = extra := by simpa using hrepeq
      obtain ⟨i, ⟨t, hit⟩, hri⟩ := hmem r (by rw [hre] at hr; exact hr)
      refine ⟨i, ⟨t, hit⟩, ?_, hri⟩
      have hmf : (i, t) ∈ runTasksOf env wf.tasks := by
        rw [httr]
        exact hit
      have := (List.mem_filter.mp hmf).2
      exact of_decide_eq_true this
    rcases hcc : complete_run env stR
        ⟨wf.scratchpad_directory, src, pathJoin wf.scratchpad_directory iname,
          pathJoin wf.scratchpad_directory oname⟩ with ⟨cr, stS⟩
    have hcases := complete_run_cases env stR
      ⟨wf.scratchpad_directory, src, pathJoin wf.scratchpad_directory iname,
        pathJoin wf.scratchpad_directory oname⟩
    rw [hcc] at hcases
    rcases hcases with ⟨hc1, c2, hc2, hc3⟩ | ⟨hc1, hc3⟩
    · have hcc2 : complete_run env stR
          ⟨wf.scratchpad_directory, src, pathJoin wf.scratchpad_directory iname,
            pathJoin wf.scratchpad_directory oname⟩ = (.ok (), stS) := by
        rw [hcc]
        exact congrArg (fun z => (z, stS)) hc1
      rw [run_workflow_eq_run_ok env wf src fs0 _ _ _ stR stS (it0 :: ttr2) reports
        hpp hpt rfl hrt hcc2]
      have htr2 : stR.trace = stQ.trace ++ tr := htr
      have hS : stS = ⟨(stR.fs.removeFile (pathJoin wf.scratchpad_directory iname)).write src
          c2, stR.trace ++ [Event.renamed (pathJoin wf.scratchpad_directory iname) src true],
          stR.renameCount + 1⟩ := hc3
      have htrS : stS.trace = stQ.trace ++ (tr ++
          [Event.renamed (pathJoin wf.scratchpad_directory iname) src true]) := by
        rw [hS]
        show stR.trace ++ _ = _
        rw [htr2, List.append_assoc]
      refine ⟨?_, ?_, ?_, ?_⟩
      · show stS.trace.take _ = _
        rw [htrS, hqtrace, List.take_left' hlenpref]
      · show (stS.trace.drop _).filterMap probeIdx? = _
        rw [htrS, hqtrace, List.drop_left' hlenpref, List.filterMap_append, hprobe]
        simp [probeIdx?]
      · show (stS.trace.drop _).filterMap execIdx? = _
        rw [htrS, hqtrace, List.drop_left' hlenpref, List.filterMap_append, hexec]
        simp [execIdx?]
      · intro rep hrep r hr
        have h9 : Res.ok (WorkflowReport.new_with_reports wf reports) = Res.ok rep := hrep
        injection h9 with h9
        rw [← h9] at hr
        exact hmemrun r hr
    · have hcc2 : complete_run env stR
          ⟨wf.scratchpad_directory, src, pathJoin wf.scratchpad_directory iname,
            pathJoin wf.scratchpad_directory oname⟩ = (.err .UnableToMoveFile, stS) := by
        rw [hcc]
        exact congrArg (fun z => (z, stS)) hc1
      rw [run_workflow_eq_run_err env wf src fs0 _ _ _ stR stS (it0 :: ttr2) reports
        .UnableToMoveFile hpp hpt rfl hrt hcc2]
      have htr2 : stR.trace = stQ.trace ++ tr := htr
      have hS : stS = ⟨stR.fs,
          stR.trace ++ [Event.renamed (pathJoin wf.scratchpad_directory iname) src false],
          stR.renameCount + 1⟩ := hc3
      have htrS : stS.trace = stQ.trace ++ (tr ++
          [Event.renamed (pathJoin wf.scratchpad_directory iname) src false]) := by
        rw [hS]
        show stR.trace ++ _ = _
        rw [htr2, List.append_assoc]
      refine ⟨?_, ?_, ?_, fun rep hrep => by simp at hrep⟩
      · show stS.trace.take _ = _
        rw [htrS, hqtrace, List.take_left' hlenpref]
      · show (stS.trace.drop _).filterMap probeIdx? = _
        rw [htrS, hqtrace, List.drop_left' hlenpref, List.filterMap_append, hprobe]
        simp [probeIdx?]
      · show (stS.trace.drop _).filterMap execIdx? = _
        rw [htrS, hqtrace, List.drop_left' hlenpref, List.filterMap_append, hexec]
        simp [execIdx?]

/-- Witness for the ordering theorem at a concrete one-task run. -/
theorem run_workflow_order_witness :
    wFs.read "/lib/a.mkv" = some "ORIG" ∧
    ((run_workflow wEnv wWf "/lib/a.mkv" wFs).2.trace.drop
        (2 + wWf.tasks.length)).filterMap execIdx? =
      (runTasksOf wEnv wWf.tasks).map (fun it => it.1) :=
  ⟨by decide,
    (run_workflow_order wEnv wWf "/lib/a.mkv" wFs "ORIG" "a-u1.mkv" "a-u1.out.mkv"
      (by decide) (by decide) rfl rfl (by decide)
      (fun i _ h => by simp [wEnv] at h)).2.2.1⟩

/-- C4 counterexample: for a workflow with zero tasks run_workflow still
succeeds with an empty report, but - against the claim - the staged
copy is NOT renamed back over the source file: the trace of the run
contains no rename event at all (it is exactly the directory creation
and the staging copy), and the staged copy is left behind in the
scratchpad. -/
theorem run_workflow_empty_commit_cex :
    (run_workflow wEnvSkip wWfEmpty "/lib/a.mkv" wFs).1 =
      Res.ok (WorkflowReport.new wWfEmpty) ∧
    (run_workflow wEnvSkip wWfEmpty "/lib/a.mkv" wFs).2.trace =
      [Event.mkdir "/scratch", Event.copied "/lib/a.mkv" "/scratch/a-u1.mkv"] ∧
    (run_workflow wEnvSkip wWfEmpty "/lib/a.mkv" wFs).2.fs.read "/scratch/a-u1.mkv" =
      some "ORIG" ∧
    (run_workflow wEnvSkip wWfEmpty "/lib/a.mkv" wFs).2.fs.read "/lib/a.mkv" =
      some "ORIG" ∧
    Event.renamed "/scratch/a-u1.mkv" "/lib/a.mkv" true ∉
      (run_workflow wEnvSkip wWfEmpty "/lib/a.mkv" wFs).2.trace := by
  decide

/-- C4 amended: a run whose task list is empty or is filtered to empty
by probes (every probe answers Skip) still succeeds and returns a
WorkflowReport with zero TaskReports, but it returns early WITHOUT the
copy-and-commit: the trace ends after the probes (so no rename is ever
performed), the source file is untouched rather than round-tripped, and
the staged copy is left behind in the scratchpad. -/
theorem run_workflow_empty_no_commit
    (env : RunEnv) (wf : Workflow) (src : FsPath) (fs0 : FS) (orig : Content)
    (iname oname : String)
    (hgt : generate_target_file env.uuid src = .ok iname)
    (hgo : generate_output_file_name iname = .ok oname)
    (hcd : env.createDirFails = false) (hcp : env.copyFails = false)
    (horig : fs0.read src = some orig)
    (hi : pathJoin wf.scratchpad_directory iname ≠ src)
    (hskip : ∀ i, i < wf.tasks.length → env.probeOutcome i = ProbeResult.Skip) :
    (run_workflow env wf src fs0).1 = Res.ok (WorkflowReport.new wf) ∧
    (WorkflowReport.new wf).task_reports = [] ∧
    (run_workflow env wf src fs0).2.trace =
      ([Event.mkdir wf.scratchpad_directory,
        Event.copied src (pathJoin wf.scratchpad_directory iname)] ++
       (indexed wf.tasks).map (fun it => Event.probed it.1)) ∧
    (run_workflow env wf src fs0).2.fs.read src = some orig ∧
    (run_workflow env wf src fs0).2.fs.read (pathJoin wf.scratchpad_directory iname) =
      some orig := by
  obtain ⟨stP, stQ, hpp, hpt, hqfs, hqrc, hqtrace⟩ :=
    run_workflow_stage env wf src fs0 orig iname oname hgt hgo hcd hcp horig
  have hnab : (indexed wf.tasks).any
      (fun it => decide (env.probeOutcome it.1 = ProbeResult.Abort)) = false := by
    rw [List.any_eq_false]
    intro it hmem
    have hb := mem_indexedFrom_bound wf.tasks 0 it hmem
    have hsk := hskip it.1 (by simpa using hb.2)
    simp [hsk]
  have hrun0 : runTasksOf env wf.tasks = [] := by
    rw [runTasksOf, List.filter_eq_nil_iff]
    intro it hmem
    have hb := mem_indexedFrom_bound wf.tasks 0 it hmem
    have hsk := hskip it.1 (by simpa using hb.2)
    simp [hsk]
  rw [if_neg (by simp [hnab]), hrun0] at hpt
  rw [run_workflow_eq_empty env wf src fs0 _ _ _ hpp hpt]
  refine ⟨rfl, rfl, hqtrace, ?_, ?_⟩
  · show stQ.fs.read src = some orig
    rw [hqfs, read_write]
    simp [Ne.symm hi, horig]
  · show stQ.fs.read (pathJoin wf.scratchpad_directory iname) = some orig
    rw [hqfs, read_write]
    simp

/-- Witness for the empty-run theorem at a concrete one-task run whose
probe answers Skip. -/
theorem run_workflow_empty_no_commit_witness :
    wFs.read "/lib/a.mkv" = some "ORIG" ∧
    (run_workflow wEnvSkip wWf "/lib/a.mkv" wFs).1 = Res.ok (WorkflowReport.new wWf) :=
  ⟨by decide,
    (run_workflow_empty_no_commit wEnvSkip wWf "/lib/a.mkv" wFs "ORIG" "a-u1.mkv"
      "a-u1.out.mkv" (by decide) (by decide) rfl rfl (by decide) (by decide)
      (fun i _ => rfl)).1⟩

/-- C3, evaluated at the failing input: a task whose command exits 0 but
writes no output file.  The run does not fail and the next step works on
the same staged file (the final rename moves the unchanged staged copy),
but - against the claim - the TaskReport of the executed task is
dropped from the WorkflowReport (the report list is empty although the
execution event execTask 0 is in the trace), and no warning event is
recorded: the code hits the continue before both the warn call and the
report push. -/
theorem run_tasks_missing_output_drops_report :
    (run_workflow wEnvNoOut wWf "/lib/a.mkv" wFs).1 =
      Res.ok (WorkflowReport.new_with_reports wWf []) ∧
    (run_workflow wEnvNoOut wWf "/lib/a.mkv" wFs).2.trace =
      [Event.mkdir "/scratch", Event.copied "/lib/a.mkv" "/scratch/a-u1.mkv",
       Event.probed 0, Event.execTask 0 none,
       Event.renamed "/scratch/a-u1.mkv" "/lib/a.mkv" true] ∧
    (run_workflow wEnvNoOut wWf "/lib/a.mkv" wFs).2.fs.read "/lib/a.mkv" =
      some "ORIG" := by
  decide

/-- C5 counterexample: a source path without a file extension does not
yield a typed RunnerError - run_workflow panics (the expect in
generate_target_file fires), refuting that every runner-level failure is
returned as a typed error value. -/
theorem run_workflow_extensionless_panics_cex :
    (run_workflow wEnv wWfEmpty "/tmp/videofile" wFs).1 =
      Res.panicked "failed to take file extension" := by
  decide

/-- C5 amended: when the staging file names can be derived (the source
path has a file name and an extension), run_workflow never panics - all
its failures are typed RunnerError values; but a source path without an
extension panics inside prepare, a task script whose process cannot be
spawned panics inside run_script (and hence run_task), and non-UTF-8
subprocess output panics the Output-to-TaskReport conversion: those
three failure modes abort the worker thread instead of becoming typed
errors. -/
theorem runner_failures_typed_or_panic
    (env : RunEnv) (wf : Workflow) (src : FsPath) (fs0 : FS)
    (iname oname : String)
    (hgt : generate_target_file env.uuid src = .ok iname)
    (hgo : generate_output_file_name iname = .ok oname) :
    (∀ m, (run_workflow env wf src fs0).1 ≠ Res.panicked m) ∧
    (run_script SpawnBehavior.spawnFails =
      PRes.panicked "failed to spawn child when running script") ∧
    (∀ t : CustomTask, t.run_task SpawnBehavior.spawnFails =
      PRes.panicked "failed to spawn child when running script") ∧
    (generate_target_file "u" "/tmp/videofile" =
      PRes.panicked "failed to take file extension") ∧
    (taskReportFromOutput (some 0) [255] [] = PRes.panicked "cannot get out of task") := by
  refine ⟨?_, rfl, fun t => rfl, by decide, by decide⟩
  intro m
  rcases hpp : prepare env ⟨fs0, [], 0⟩ wf.scratchpad_directory src with ⟨pres, stP⟩
  rcases prepare_spec env ⟨fs0, [], 0⟩ wf.scratchpad_directory src iname oname hgt hgo with
    ⟨_, hpe⟩ | ⟨_, _, hpe⟩ | ⟨_, _, _, hpe⟩ | ⟨c, _, _, _, hpe⟩
  · rw [run_workflow_eq_preperr env wf src fs0 _ _ hpe]
    simp
  · rw [run_workflow_eq_preperr env wf src fs0 _ _ hpe]
    simp
  · rw [run_workflow_eq_preperr env wf src fs0 _ _ hpe]
    simp
  · rw [hpp] at hpe
    injection hpe with hpe1 hpe2
    subst hpe1
    rcases hq : probe_tasks env stP wf.tasks with ⟨pr2, stQ⟩
    have hpt := probe_tasks_eq env stP wf.tasks
    rw [hq] at hpt
    injection hpt with hpt1 hpt2
    by_cases habort :
        (indexed wf.tasks).any (fun it => decide (env.probeOutcome it.1 = ProbeResult.Abort))
    · rw [if_pos habort] at hpt1
      subst hpt1
      rw [run_workflow_eq_abort env wf src fs0 _ _ _ hpp hq]
      simp
    · rw [if_neg habort] at hpt1
      subst hpt1
      rcases httr : runTasksOf env wf.tasks with _ | ⟨it0, ttr2⟩
      · rw [httr] at hq
        rw [run_workflow_eq_empty env wf src fs0 _ _ _ hpp hq]
        simp
      · rw [httr] at hq
        rcases hrt : run_tasks_go env
            ⟨wf.scratchpad_directory, src, pathJoin wf.scratchpad_directory iname,
              pathJoin wf.scratchpad_directory oname⟩ (it0 :: ttr2) stQ [] with ⟨reports, stR⟩
        rcases hcc : complete_run env stR
            ⟨wf.scratchpad_directory, src, pathJoin wf.scratchpad_directory iname,
              pathJoin wf.scratchpad_directory oname⟩ with ⟨cr, stS⟩
        have hcases := complete_run_cases env stR
          ⟨wf.scratchpad_directory, src, pathJoin wf.scratchpad_directory iname,
            pathJoin wf.scratchpad_directory oname⟩
        rw [hcc] at hcases
        rcases hcases with ⟨hc1, c2, hc2, hc3⟩ | ⟨hc1, hc3⟩
        · rw [run_workflow_eq_run_ok env wf src fs0 _ _ _ stR stS (it0 :: ttr2) reports
            hpp hq rfl hrt (by rw [hcc]; exact congrArg (fun z => (z, stS)) hc1)]
          simp
        · rw [run_workflow_eq_run_err env wf src fs0 _ _ _ stR stS (it0 :: ttr2) reports
            .UnableToMoveFile hpp hq rfl hrt
            (by rw [hcc]; exact congrArg (fun z => (z, stS)) hc1)]
          simp

/-- Witness for the no-panic theorem at a concrete run. -/
theorem runner_failures_typed_or_panic_witness :
    generate_target_file wEnv.uuid "/lib/a.mkv" = PRes.ok "a-u1.mkv" ∧
    (run_workflow wEnv wWf "/lib/a.mkv" wFs).1 ≠ Res.panicked "boom" :=
  ⟨by decide,
    (runner_failures_typed_or_panic wEnv wWf "/lib/a.mkv" wFs "a-u1.mkv" "a-u1.out.mkv"
      (by decide) (by decide)).1 "boom"⟩

/-- C6 counterexample: a probe process that fails to spawn does not
yield ProbeResult Abort - the expect inside run_script panics the
worker instead. -/
theorem probe_spawn_failure_panics_cex :
    CustomTask.run_probe wProbeTask SpawnBehavior.spawnFails =
      PRes.panicked "failed to spawn child when running script" ∧
    ¬ CustomTask.run_probe wProbeTask SpawnBehavior.spawnFails =
      PRes.ok ProbeResult.Abort := by
  decide

/-- C6 amended: a custom task with no probe always yields Run; with a
probe, the probe subprocess receives OMZET_INPUT and OMZET_TASK, exit
code 0 yields Run and any nonzero exit code yields Skip; but the Abort
arm is unreachable: run_script never returns an error value (its
failure paths panic), so no spawn or wait failure ever yields Abort -
it panics the worker instead. -/
theorem custom_probe_semantics (t : CustomTask) (p : String) (hp : t.probe = some p) :
    (∀ t2 : CustomTask, t2.probe = none → ∀ b, t2.run_probe b = PRes.ok ProbeResult.Run) ∧
    (∀ out err, t.run_probe (.runs (some 0) out err) = PRes.ok ProbeResult.Run) ∧
    (∀ c out err, c ≠ 0 → t.run_probe (.runs (some c) out err) =
      PRes.ok ProbeResult.Skip) ∧
    (∀ b, t.run_probe b ≠ PRes.ok ProbeResult.Abort) ∧
    (∀ b m, run_script b ≠ PRes.ok (Except.error m)) ∧
    (∀ path, probeEnvVars t path = [("OMZET_INPUT", path), ("OMZET_TASK", t.id)]) := by
  refine ⟨?_, ?_, ?_, ?_, ?_, fun path => rfl⟩
  · intro t2 h2 b
    simp [CustomTask.run_probe, h2]
  · intro out err
    simp [CustomTask.run_probe, hp, run_script]
  · intro c out err hc
    simp [CustomTask.run_probe, hp, run_script, hc]
  · intro b
    cases b with
    | spawnFails => simp [CustomTask.run_probe, hp, run_script]
    | waitFails => simp [CustomTask.run_probe, hp, run_script]
    | runs code out err =>
      cases code with
      | none => simp [CustomTask.run_probe, hp, run_script]
      | some cc =>
        by_cases hc : cc = 0 <;> simp [CustomTask.run_probe, hp, run_script, hc]
  · intro b m
    cases b with
    | spawnFails => simp [run_script]
    | waitFails => simp [run_script]
    | runs code out err => cases code <;> simp [run_script]

/-- Witness for the custom probe semantics at a concrete task. -/
theorem custom_probe_semantics_witness :
    wProbeTask.probe = some "probe.sh" ∧
    CustomTask.run_probe wProbeTask (.runs (some 0) "" "") = PRes.ok ProbeResult.Run :=
  ⟨rfl, (custom_probe_semantics wProbeTask "probe.sh" rfl).2.1 "" ""⟩

/-- C7: handle_incoming_job_requests keeps the queue free of structural
duplicates - a queue without duplicates stays without duplicates after
draining any batch of incoming requests, and submitting two
structurally equal requests to a queue not containing them yields
exactly one entry for them. -/
theorem queue_dedup (queue : List JobRequest) (hnd : queue.Nodup) :
    (∀ incoming, (handle_incoming_job_requests queue incoming).Nodup) ∧
    (∀ j, j ∉ queue → (handle_incoming_job_requests queue [j, j]).count j = 1) := by
  have main : ∀ (inc q : List JobRequest), q.Nodup →
      (handle_incoming_job_requests q inc).Nodup := by
    intro inc
    induction inc with
    | nil =>
      intro q h
      exact h
    | cons a as ih =>
      intro q h
      unfold handle_incoming_job_requests at ih ⊢
      rw [List.foldl_cons]
      by_cases ha : a ∈ q
      · rw [if_pos ha]
        exact ih q h
      · rw [if_neg ha]
        refine ih (q ++ [a]) ?_
        rw [List.nodup_append]
        exact ⟨h, List.nodup_singleton a,
          fun x hx hxa => ha (List.mem_singleton.mp hxa ▸ hx)⟩
  refine ⟨fun incoming => main incoming queue hnd, ?_⟩
  intro j hj
  have hstep : handle_incoming_job_requests queue [j, j] = queue ++ [j] := by
    unfold handle_incoming_job_requests
    rw [List.foldl_cons, if_neg hj, List.foldl_cons, if_pos (by simp), List.foldl_nil]
  rw [hstep, List.count_append, List.count_eq_zero.mpr hj]
  simp

/-- Witness for the dedup theorem: two equal requests into an empty
queue leave one entry. -/
theorem queue_dedup_witness :
    ([] : List JobRequest).Nodup ∧
    (handle_incoming_job_requests [] [wJob, wJob]).count wJob = 1 :=
  ⟨List.nodup_nil, (queue_dedup [] List.nodup_nil).2 wJob (by simp)⟩

/-- C8: while the running-job slot is occupied, one tick of the control
loop never emits a spawn event, whatever is queued or arriving; and
start_job called with an occupied slot rejects the attempt, logging a
warning and leaving the state unchanged. -/
theorem no_second_worker (st : OrchState) (incoming : List JobRequest) (finished : Bool)
    (hbusy : st.running.isSome = true) :
    (∀ j, OrchEvent.spawned j ∉ (tick st incoming finished).2) ∧
    (∀ st2 : OrchState, st2.running.isSome = true →
      start_job st2 = (st2, [OrchEvent.warnedAlreadyRunning])) := by
  constructor
  · intro j
    rcases hr : st.running with _ | j0
    · rw [hr] at hbusy
      simp at hbusy
    · by_cases hf : finished <;> simp [tick, handle_runner, hr, hf]
  · intro st2 h2
    unfold start_job
    rw [if_pos h2]

/-- Witness for the single-worker theorem at a concrete busy state. -/
theorem no_second_worker_witness :
    wBusy.running.isSome = true ∧
    OrchEvent.spawned wJob ∉ (tick wBusy [] true).2 :=
  ⟨rfl, (no_second_worker wBusy [] true rfl).1 wJob⟩

end Omzet

